/-
Verification of the MCP connection/discovery orchestrator of gemini-cli
(packages/core/src/tools/mcp-client.ts, mcp-prompt.ts, mcp-prompt-registry.ts).

The TypeScript code is shallowly embedded: every stateful operation is an
explicit function on an `McpState` record, and every external effect
(transport connect, capability query, tool/prompt list calls, transport
close, URL parsing) is an input supplied through a `ServerBehavior` record,
so that one run of the orchestrator is a pure function of the configuration
map, the behaviors, and the initial state.  Tasks spawned by `Promise.all`
are executed sequentially in map-entry order (one legal schedule; tasks
touch disjoint status keys, so the properties proved here are about that
canonical schedule).  A task that would reject its promise returns
`some errorMessage` in the second component; effects performed before the
rejection point are kept, as in JavaScript.
-/
import Mathlib

namespace Mcp

/-! ## Basic enums (mcp-client.ts lines 26-45) -/

/-- `MCPServerStatus` enum from mcp-client.ts. -/
inductive MCPServerStatus where
  | DISCONNECTED
  | CONNECTING
  | CONNECTED
deriving DecidableEq, Repr

/-- `MCPDiscoveryState` enum from mcp-client.ts. -/
inductive MCPDiscoveryState where
  | NOT_STARTED
  | IN_PROGRESS
  | COMPLETED
deriving DecidableEq, Repr

/-! ## Server configuration (`MCPServerConfig` from config.ts, fields as used
by mcp-client.ts).  Environment-variable maps and header maps are modelled as
association lists; their contents never influence the orchestrator logic,
only the (excluded-from-log) payloads. -/

structure MCPServerConfig where
  httpUrl : Option String := none
  url : Option String := none
  command : Option String := none
  args : Option (List String) := none
  env : Option (List (String × String)) := none
  cwd : Option String := none
  headers : Option (List (String × String)) := none
  timeout : Option Nat := none
  trust : Option Bool := none
  includeTools : Option (List String) := none
  excludeTools : Option (List String) := none
deriving DecidableEq, Repr

/-! ## JavaScript-style insertion-ordered string maps.

`Record` and `Map` objects in the source preserve insertion order; setting an
existing key updates its value in place, setting a fresh key appends. -/

def mapSet {α : Type} : List (String × α) → String → α → List (String × α)
  | [], k, v => [(k, v)]
  | (k0, v0) :: rest, k, v =>
      if k0 = k then (k0, v) :: rest else (k0, v0) :: mapSet rest k v

def mapGet {α : Type} : List (String × α) → String → Option α
  | [], _ => none
  | (k0, v0) :: rest, k => if k0 = k then some v0 else mapGet rest k

/-! ## Name resolution (mcp-client.ts lines 364-379, mcp-prompt.ts lines 88-105).

JavaScript `.length`, `.slice` act on UTF-16 code units; names here are
treated as character sequences (they agree on the ASCII inputs involved). -/

/-- A character admitted by the regex `[a-zA-Z0-9_.-]` used at
mcp-client.ts line 367 and mcp-prompt.ts line 94. -/
def isAllowedChar (c : Char) : Bool :=
  (('a' ≤ c && c ≤ 'z') || ('A' ≤ c && c ≤ 'Z') || ('0' ≤ c && c ≤ '9')
    || c = '_' || c = '.' || c = '-')

/-- `name.replace(/[^a-zA-Z0-9_.-]/g, '_')`. -/
def sanitizeName (s : String) : String :=
  String.mk (s.toList.map fun c => if isAllowedChar c then c else '_')

/-- The shared truncation step: if longer than 63 characters, keep the first
28 characters, insert `___`, and append the last 32 characters
(mcp-client.ts lines 376-379, mcp-prompt.ts lines 100-102). -/
def truncateName (s : String) : String :=
  if s.toList.length > 63 then
    String.mk (s.toList.take 28 ++ ('_' :: '_' :: '_' :: [])
      ++ s.toList.drop (s.toList.length - 32))
  else s

/-- `promptToSlashCommandName` from mcp-prompt.ts lines 88-105: sanitize,
always prefix with `serverName__`, then truncate. -/
def promptToSlashCommandName (serverName promptName : String) : String :=
  truncateName (serverName ++ "__" ++ sanitizeName promptName)

/-! ## Artifacts -/

def MCP_DEFAULT_TIMEOUT_MSEC : Nat := 10 * 60 * 1000

/-- A function declaration from `mcpCallableTool.tool()`.  The guard
`if (!funcDecl.name) continue` skips names that are missing or empty; both
are modelled by the empty string. -/
structure FuncDecl where
  name : String
  description : Option String := none
deriving DecidableEq, Repr

/-- A prompt argument declaration from the MCP SDK. -/
structure PromptArg where
  name : String
  description : Option String := none
  required : Option Bool := none
deriving DecidableEq, Repr

/-- A prompt as delivered by `mcpClient.listPrompts()`. -/
structure PromptDef where
  name : String
  description : Option String := none
  arguments : Option (List PromptArg) := none
deriving DecidableEq, Repr

/-- The data of a `DiscoveredMCPTool` as constructed at mcp-client.ts lines
383-394.  The callable-client handle and the parameter schema are carried
opaquely by the source and never inspected by the orchestrator, so they are
omitted here. -/
structure DiscoveredMCPTool where
  serverName : String
  nameForModel : String
  description : String
  serverToolName : String
  timeout : Nat
  trust : Option Bool
deriving DecidableEq, Repr

/-- An `MCPPrompt` record as stored at mcp-client.ts lines 422-428 (the
client handle is omitted, as for tools). -/
structure MCPPrompt where
  name : String
  description : Option String
  arguments : Option (List PromptArg)
  serverName : String
deriving DecidableEq, Repr

/-! ## Tool registry -/

/-- Modelled from the spec: `ToolRegistry` lives in tool-registry.ts, which
is not among the provided sources; spec §4.6 gives its contract.
`register` inserts into a primary map keyed by the artifact's already
resolved public name (overwrite on duplicate — last write wins) and appends
to a per-server secondary index; `getTool(name)` reads the primary map;
`getToolsByServer(serverName)` returns that server's bucket (empty sequence
if unknown). -/
structure ToolRegistry where
  tools : List (String × DiscoveredMCPTool) := []
  toolsByServer : List (String × List DiscoveredMCPTool) := []
deriving DecidableEq, Repr

def ToolRegistry.getTool (r : ToolRegistry) (name : String) :
    Option DiscoveredMCPTool :=
  mapGet r.tools name

def ToolRegistry.getToolsByServer (r : ToolRegistry) (serverName : String) :
    List DiscoveredMCPTool :=
  (mapGet r.toolsByServer serverName).getD []

def ToolRegistry.registerTool (r : ToolRegistry) (t : DiscoveredMCPTool) :
    ToolRegistry where
  tools := mapSet r.tools t.nameForModel t
  toolsByServer :=
    mapSet r.toolsByServer t.serverName (r.getToolsByServer t.serverName ++ [t])

/-! ## Log, state, behaviors -/

/-- The redacted configuration summary built at mcp-client.ts lines 286-294:
only these six fields; `args`, `env` and `headers` are deliberately
excluded. -/
structure SafeConfig where
  command : Option String
  url : Option String
  httpUrl : Option String
  cwd : Option String
  timeout : Option Nat
  trust : Option Bool
deriving DecidableEq, Repr

def safeConfigOf (cfg : MCPServerConfig) : SafeConfig where
  command := cfg.command
  url := cfg.url
  httpUrl := cfg.httpUrl
  cwd := cfg.cwd
  timeout := cfg.timeout
  trust := cfg.trust

/-- One console message emitted by the orchestrator, with the data
interpolated into it.  (Fixed surrounding text, and the SANDBOX suffix of
the connect-failure message, carry no per-run data and are elided.) -/
inductive LogEntry where
  | invalidConfig (serverName : String)
  | connectFailed (serverName : String) (safeConfig : SafeConfig) (errMsg : String)
  | invalidToolDeclarations (serverName : String)
  | toolListFailed (serverName : String) (errMsg : String)
  | promptListFailed (serverName : String) (errMsg : String)
  | noArtifactsClosing (serverName : String)
deriving DecidableEq, Repr

/-- The module-level mutable state of mcp-client.ts.
`discoveryStateWrites` additionally records every write to
`mcpDiscoveryState`, `promptNotifications` counts the
`notifyPromptChangeListeners()` calls, and `closedTransports` records the
servers whose `transport.close()` call resolved, so temporal and
resource claims can be stated. -/
structure McpState where
  mcpServerStatusesInternal : List (String × MCPServerStatus) := []
  mcpPromptsRegistry : List (String × MCPPrompt) := []
  mcpDiscoveryState : MCPDiscoveryState := .NOT_STARTED
  discoveryStateWrites : List MCPDiscoveryState := []
  toolRegistry : ToolRegistry := {}
  promptNotifications : Nat := 0
  closedTransports : List String := []
  log : List LogEntry := []
deriving DecidableEq, Repr

/-- `updateMCPServerStatus` (mcp-client.ts lines 120-129); listener fan-out
carries no state of its own and is not modelled. -/
def updateMCPServerStatus (serverName : String) (status : MCPServerStatus)
    (st : McpState) : McpState :=
  { st with mcpServerStatusesInternal :=
      mapSet st.mcpServerStatusesInternal serverName status }

/-- `getMCPServerStatus` (mcp-client.ts lines 143-147): defaults to
DISCONNECTED for a server never written. -/
def getMCPServerStatus (st : McpState) (serverName : String) :
    MCPServerStatus :=
  (mapGet st.mcpServerStatusesInternal serverName).getD .DISCONNECTED

def setDiscoveryState (s : MCPDiscoveryState) (st : McpState) : McpState :=
  { st with mcpDiscoveryState := s
            discoveryStateWrites := st.discoveryStateWrites ++ [s] }

def logEntry (e : LogEntry) (st : McpState) : McpState :=
  { st with log := st.log ++ [e] }

/-- JavaScript truthiness of an optional string: absent and `''` are both
falsy. -/
def truthy (o : Option String) : Bool := o.getD "" ≠ ""

/-- Which transport the config selects (mcp-client.ts lines 226-259):
precedence httpUrl, then url, then command; none of them means an invalid
configuration. -/
inductive TransportKind where
  | streamableHttp
  | sse
  | stdio
deriving DecidableEq, Repr

def transportKind (cfg : MCPServerConfig) : Option TransportKind :=
  if truthy cfg.httpUrl then some .streamableHttp
  else if truthy cfg.url then some .sse
  else if truthy cfg.command then some .stdio
  else none

/-- The outcome of every external interaction one server task can perform;
each field corresponds to one suspension or throw point of
`connectAndDiscover`.  Supplying these as data makes one task a pure
function of its inputs. -/
structure ServerBehavior where
  /-- `new URL(...)` succeeds (consulted for the http/sse transports only). -/
  urlOk : Bool := true
  /-- `mcpClient.connect` resolves. -/
  connectOk : Bool := true
  /-- the stringified error when connect rejects. -/
  connectErrMsg : String := ""
  /-- `capabilities?.tools` is truthy. -/
  capTools : Bool := false
  /-- `capabilities?.prompts` is truthy. -/
  capPrompts : Bool := false
  /-- `.error e`: `mcpCallableTool.tool()` rejects with `e`; `.ok none`: the
  result lacks a `functionDeclarations` array; `.ok (some l)`: valid list. -/
  toolsResult : Except String (Option (List FuncDecl)) := .ok none
  /-- `.error e`: `listPrompts()` rejects with `e`; `.ok none`:
  `promptsResult.prompts` missing or not an array; `.ok (some l)`: valid. -/
  promptsResult : Except String (Option (List PromptDef)) := .ok none
  /-- `transport.close()` resolves. -/
  closeOk : Bool := true
deriving Repr

/-! ## The per-server discovery task (mcp-client.ts lines 217-471) -/

/-- Allow-list/deny-list gate for one tool (mcp-client.ts lines 344-362):
no allow-list admits everything, an allow-list admits an exact match or an
entry starting with `name(`; a deny-list match then forces the tool off. -/
def toolIsEnabled (cfg : MCPServerConfig) (toolName : String) : Bool :=
  let isEnabled :=
    match cfg.includeTools with
    | none => true
    | some includeTools =>
        includeTools.any fun tool =>
          tool = toolName || (toolName ++ "(").isPrefixOf tool
  if (cfg.excludeTools.getD []).contains toolName then false else isEnabled

/-- Tool-name resolution (mcp-client.ts lines 364-379): sanitize, prefix
with `serverName__` only when the sanitized (untruncated) name is already a
key of the tool registry, then truncate. -/
def resolveToolName (rawName serverName : String) (registry : ToolRegistry) :
    String :=
  let toolNameForModel := sanitizeName rawName
  let toolNameForModel :=
    match registry.getTool toolNameForModel with
    | some _ => serverName ++ "__" ++ toolNameForModel
    | none => toolNameForModel
  truncateName toolNameForModel

/-- One iteration of the tool-registration loop (mcp-client.ts lines
339-395). -/
def registerOneTool (serverName : String) (cfg : MCPServerConfig)
    (reg : ToolRegistry) (funcDecl : FuncDecl) : ToolRegistry :=
  if funcDecl.name = "" then reg
  else if !toolIsEnabled cfg funcDecl.name then reg
  else
    reg.registerTool
      { serverName := serverName
        nameForModel := resolveToolName funcDecl.name serverName reg
        description := funcDecl.description.getD ""
        serverToolName := funcDecl.name
        timeout := cfg.timeout.getD MCP_DEFAULT_TIMEOUT_MSEC
        trust := cfg.trust }

/-- Tool discovery (mcp-client.ts lines 327-405): skipped without the tools
capability; a rejected or structurally invalid listing is logged and tool
registration skipped, without aborting the rest of the task. -/
def toolDiscoveryPhase (serverName : String) (cfg : MCPServerConfig)
    (beh : ServerBehavior) (st : McpState) : McpState :=
  if beh.capTools then
    match beh.toolsResult with
    | .error e => logEntry (.toolListFailed serverName e) st
    | .ok none => logEntry (.invalidToolDeclarations serverName) st
    | .ok (some decls) =>
        { st with toolRegistry :=
            decls.foldl (registerOneTool serverName cfg) st.toolRegistry }
  else st

/-- One iteration of the prompt-registration loop (mcp-client.ts lines
413-430): skip nameless prompts, key by `server:promptName`, record that a
prompt was added. -/
def registerOnePrompt (serverName : String)
    (acc : List (String × MCPPrompt) × Bool) (prompt : PromptDef) :
    List (String × MCPPrompt) × Bool :=
  if prompt.name = "" then acc
  else
    (mapSet acc.1 (serverName ++ ":" ++ prompt.name)
      { name := prompt.name
        description := prompt.description
        arguments := prompt.arguments
        serverName := serverName },
     true)

/-- Prompt discovery (mcp-client.ts lines 407-445): skipped without the
prompts capability; a rejected listing is logged as a capability mismatch;
listeners are notified once when at least one prompt was added. -/
def promptDiscoveryPhase (serverName : String) (beh : ServerBehavior)
    (st : McpState) : McpState :=
  if beh.capPrompts then
    match beh.promptsResult with
    | .error e => logEntry (.promptListFailed serverName e) st
    | .ok none => st
    | .ok (some prompts) =>
        let res := prompts.foldl (registerOnePrompt serverName)
          (st.mcpPromptsRegistry, false)
        let st := { st with mcpPromptsRegistry := res.1 }
        if res.2 then
          { st with promptNotifications := st.promptNotifications + 1 }
        else st
  else st

/-- Idle teardown (mcp-client.ts lines 447-470): with no tools and no
prompts registered for this server, log, close the transport (a rejected
close escapes the task — no try/catch encloses it) and mark DISCONNECTED.
The transport here is always one of the three SDK transport classes, so the
instanceof guard at lines 461-465 is satisfied. -/
def idleCheckPhase (serverName : String) (beh : ServerBehavior)
    (st : McpState) : McpState × Option String :=
  let hasTools := (st.toolRegistry.getToolsByServer serverName).length > 0
  let hasPrompts :=
    st.mcpPromptsRegistry.any fun p => p.2.serverName = serverName
  if !hasTools && !hasPrompts then
    let st := logEntry (.noArtifactsClosing serverName) st
    if beh.closeOk then
      let st := { st with closedTransports := st.closedTransports ++ [serverName] }
      (updateMCPServerStatus serverName .DISCONNECTED st, none)
    else (st, some "transport close failed")
  else (st, none)

/-- `connectAndDiscover` (mcp-client.ts lines 217-471) as a state
transformer.  The second component is the rejection carried by the task's
promise, if any; effects performed before the rejection point are kept. -/
def connectAndDiscover (serverName : String) (cfg : MCPServerConfig)
    (beh : ServerBehavior) (st : McpState) : McpState × Option String :=
  let st := updateMCPServerStatus serverName .CONNECTING st
  match transportKind cfg with
  | none =>
      let st := logEntry (.invalidConfig serverName) st
      (updateMCPServerStatus serverName .DISCONNECTED st, none)
  | some kind =>
      if (kind = .streamableHttp || kind = .sse) && !beh.urlOk then
        (st, some "Invalid URL")
      else if !beh.connectOk then
        let st := logEntry
          (.connectFailed serverName (safeConfigOf cfg) beh.connectErrMsg) st
        (updateMCPServerStatus serverName .DISCONNECTED st, none)
      else
        let st := updateMCPServerStatus serverName .CONNECTED st
        let st := toolDiscoveryPhase serverName cfg beh st
        let st := promptDiscoveryPhase serverName beh st
        idleCheckPhase serverName beh st

/-! ## The batch entry point (mcp-client.ts lines 170-205) -/

/-- Runs the per-server tasks sequentially in entry order.  In JavaScript
every promise is started before `Promise.all` joins them, so every task's
effects are applied even when another task rejected; the first rejection is
what `Promise.all` (and hence `discoverMcpTools`) rethrows. -/
def runTasks (behs : String → ServerBehavior) :
    List (String × MCPServerConfig) → McpState → McpState × Option String
  | [], st => (st, none)
  | (name, cfg) :: rest, st =>
      let res := connectAndDiscover name cfg (behs name) st
      let res2 := runTasks behs rest res.1
      (res2.1, res.2 <|> res2.2)

/-- `discoverMcpTools` (mcp-client.ts lines 170-205).  `parsedCommand` is
the outcome of the external shell-quote `parse(cmd, process.env)` call:
`none` when the parse yields a non-string entry (the code then throws), and
`some args` otherwise.  Returns the final value of the caller's
`mcpServers` record (which line 186 mutates in place), the final state, and
the error rethrown out of the call, if any; the catch handler marks
discovery COMPLETED before rethrowing. -/
def discoverMcpTools (mcpServers : List (String × MCPServerConfig))
    (mcpServerCommand : Option String) (parsedCommand : Option (List String))
    (behs : String → ServerBehavior) (st : McpState) :
    List (String × MCPServerConfig) × McpState × Option String :=
  let st := setDiscoveryState .IN_PROGRESS st
  if truthy mcpServerCommand then
    match parsedCommand with
    | none =>
        (mcpServers, setDiscoveryState .COMPLETED st,
         some ("failed to parse mcpServerCommand: "
           ++ mcpServerCommand.getD ""))
    | some args =>
        let mcpServers := mapSet mcpServers "mcp"
          { command := args.head?, args := some (args.drop 1) }
        let res := runTasks behs mcpServers st
        (mcpServers, setDiscoveryState .COMPLETED res.1, res.2)
  else
    let res := runTasks behs mcpServers st
    (mcpServers, setDiscoveryState .COMPLETED res.1, res.2)

/-- Number of positions at which `needle` occurs as a substring of `hay`
(used to make "contains the marker `___` exactly once" precise). -/
def countOccur (needle hay : List Char) : Nat :=
  (List.range hay.length).countP fun i => needle.isPrefixOf (hay.drop i)

/-- The registry projection of the tool-discovery phase: how
`toolDiscoveryPhase` transforms the tool registry, isolated from its
logging (see `toolDiscoveryPhase_toolRegistry`). -/
def toolPhaseRegistry (serverName : String) (cfg : MCPServerConfig)
    (beh : ServerBehavior) (reg : ToolRegistry) : ToolRegistry :=
  if beh.capTools then
    match beh.toolsResult with
    | .ok (some decls) => decls.foldl (registerOneTool serverName cfg) reg
    | _ => reg
  else reg

/-- Invariant: every prompt-registry entry owned by server `s` sits under
the key `s ++ ":" ++ name` that `connectAndDiscover` builds for it. -/
def promptKeyInv (s : String) (m : List (String × MCPPrompt)) : Prop :=
  ∀ kv ∈ m, kv.2.serverName = s → kv.1 = s ++ ":" ++ kv.2.name

end Mcp

open Mcp

/-! ## Concrete scenarios used by the counterexamples and witnesses -/

/-- Scenario A of the spec: server `alpha`, prompts capability only, one
prompt named `Review Code!`. -/
def alphaCfg : MCPServerConfig := { command := some "alpha-cmd" }

def alphaBeh : ServerBehavior :=
  { capPrompts := true
    promptsResult := .ok (some [{ name := "Review Code!" }]) }

def alphaRun : List (String × MCPServerConfig) × McpState × Option String :=
  discoverMcpTools [("alpha", alphaCfg)] none none (fun _ => alphaBeh) {}

/-- A 70-character raw tool name whose sanitized form exceeds 63
characters. -/
def c6raw1 : String := "a!" ++ String.mk (List.replicate 68 'a')

/-- A different raw name with the same sanitized form as `c6raw1`. -/
def c6raw2 : String := "a?" ++ String.mk (List.replicate 68 'a')

/-- The tool registered for `c6raw1` by server `s1` on an empty registry. -/
def c6reg1 : ToolRegistry := registerOneTool "s1" {} {} { name := c6raw1 }

/-- A concrete tool whose public name is the resolution of `search` for
`svc1` on the empty registry. -/
def c6tW : DiscoveredMCPTool :=
  { serverName := "svc1", nameForModel := "search", description := ""
    serverToolName := "search", timeout := MCP_DEFAULT_TIMEOUT_MSEC
    trust := none }

/-- A raw tool name whose sanitized form starts with `___` and is longer
than 63 characters. -/
def c5raw : String := "!!!" ++ String.mk (List.replicate 61 'a')

/-- Config whose deny-list contains `p` and that has no allow-list. -/
def c7cfg : MCPServerConfig := { command := some "cmd", excludeTools := some ["p"] }

/-- Behavior advertising only prompts and returning one prompt named `p`. -/
def c7beh : ServerBehavior :=
  { capPrompts := true, promptsResult := .ok (some [{ name := "p" }]) }

def c7run : List (String × MCPServerConfig) × McpState × Option String :=
  discoverMcpTools [("srv", c7cfg)] none none (fun _ => c7beh) {}

/-- A config carrying secrets in `headers`, `env` and `args`. -/
def c9cfg1 : MCPServerConfig :=
  { httpUrl := some "http://h"
    headers := some [("Authorization", "secret-token")]
    env := some [("KEY", "hunter2")]
    args := some ["--secret"] }

/-- The same config with the secret-bearing fields absent. -/
def c9cfg2 : MCPServerConfig := { httpUrl := some "http://h" }

def c9beh : ServerBehavior :=
  { connectOk := false, connectErrMsg := "ECONNREFUSED" }

/-- The synthesized entry for the parsed command `npx serve`. -/
def c10synth : MCPServerConfig :=
  { command := (["npx", "serve"] : List String).head?
    args := some ((["npx", "serve"] : List String).drop 1) }

/-- A caller-supplied map that already contains a server named `mcp`. -/
def c10servers : List (String × MCPServerConfig) :=
  [("mcp", { command := some "old-server" })]

/-- A valid stdio config used by the close-failure scenario. -/
def c3cfg : MCPServerConfig := { command := some "cmd" }

/-- A reachable transport whose `close()` call rejects. -/
def c3beh : ServerBehavior := { closeOk := false }

/-- A valid stdio config for the prompt-list-failure scenarios. -/
def c8cfg : MCPServerConfig := { command := some "c" }

/-- Prompts capability advertised, but the prompt-list call rejects. -/
def c8beh : ServerBehavior :=
  { capPrompts := true, promptsResult := .error "boom" }

/-- Like `c8beh`, but the server also serves one tool named `t`. -/
def c8wBeh : ServerBehavior :=
  { capTools := true, toolsResult := .ok (some [{ name := "t" }])
    capPrompts := true, promptsResult := .error "boom" }

/-- Two servers: one yielding nothing, one serving a single prompt. -/
def c2servers : List (String × MCPServerConfig) :=
  [("empty", { command := some "e" }), ("alpha2", { command := some "a" })]

/-- Behaviors for `c2servers`: `alpha2` serves one prompt, `empty` serves
nothing. -/
def c2behs : String → ServerBehavior := fun n =>
  if n = "alpha2" then
    { capPrompts := true, promptsResult := .ok (some [{ name := "p" }]) }
  else {}

/-! ## Helper lemmas about the map primitives -/

theorem mapGet_mapSet_self {α : Type} (m : List (String × α)) (k : String)
    (v : α) : mapGet (mapSet m k v) k = some v := by
  induction m with
  | nil => simp [mapSet, mapGet]
  | cons hd tl ih =>
      obtain ⟨k0, v0⟩ := hd
      by_cases h : k0 = k <;> simp [mapSet, mapGet, h, ih]

theorem mapGet_mapSet_ne {α : Type} (m : List (String × α)) (k k' : String)
    (v : α) (h : k' ≠ k) : mapGet (mapSet m k v) k' = mapGet m k' := by
  induction m with
  | nil => simp [mapSet, mapGet, h, Ne.symm h]
  | cons hd tl ih =>
      obtain ⟨k0, v0⟩ := hd
      by_cases h0 : k0 = k
      · subst h0
        simp [mapSet, mapGet, Ne.symm h]
      · simp only [mapSet, if_neg h0]
        by_cases h1 : k0 = k' <;> simp [mapGet, h1, ih]

theorem mem_mapSet {α : Type} {m : List (String × α)} {k : String} {v : α}
    {kv : String × α} (h : kv ∈ mapSet m k v) : kv ∈ m ∨ kv = (k, v) := by
  induction m with
  | nil => simpa [mapSet] using h
  | cons hd tl ih =>
      obtain ⟨k0, v0⟩ := hd
      by_cases h0 : k0 = k
      · simp only [mapSet, if_pos h0] at h
        rcases List.mem_cons.mp h with h | h
        · right; rw [h, h0]
        · left; exact List.mem_cons_of_mem _ h
      · simp only [mapSet, if_neg h0] at h
        rcases List.mem_cons.mp h with h | h
        · left; exact h ▸ List.mem_cons_self _ _
        · rcases ih h with h | h
          · left; exact List.mem_cons_of_mem _ h
          · right; exact h

theorem any_mapSet_eq_false {α : Type} (m : List (String × α)) (k : String)
    (v : α) (pred : α → Bool)
    (hm : m.any (fun kv => pred kv.2) = false) (hv : pred v = false) :
    (mapSet m k v).any (fun kv => pred kv.2) = false := by
  induction m with
  | nil => simp [mapSet, hv]
  | cons hd tl ih =>
      obtain ⟨k0, v0⟩ := hd
      simp only [List.any_cons, Bool.or_eq_false_iff] at hm
      by_cases h0 : k0 = k
      · simp [mapSet, h0, hv, hm.1, hm.2]
      · simp [mapSet, h0, hm.1, ih hm.2]

theorem any_mapSet_key_safe {α : Type} (m : List (String × α)) (k : String)
    (v : α) (pred : α → Bool) (hv : pred v = false)
    (hsafe : ∀ kv ∈ m, kv.1 = k → pred kv.2 = false) :
    ((mapSet m k v).any fun kv => pred kv.2) = (m.any fun kv => pred kv.2) := by
  induction m with
  | nil => simp [mapSet, hv]
  | cons hd tl ih =>
      obtain ⟨k0, v0⟩ := hd
      by_cases h0 : k0 = k
      · have : pred v0 = false :=
          hsafe (k0, v0) (List.mem_cons_self _ _) h0
        simp [mapSet, h0, hv, this]
      · have hsafe' : ∀ kv ∈ tl, kv.1 = k → pred kv.2 = false :=
          fun kv hkv => hsafe kv (List.mem_cons_of_mem _ hkv)
        simp [mapSet, h0, ih hsafe']

/-! ## Claim C5: the truncation law -/

/-- **C5, counterexample.**  The resolved candidate obtained from the raw
tool name `c5raw` (63 `!` would also do) is 64 characters long, so the
truncation applies, and the truncated public name contains the marker
`___` at two positions, not exactly once: the sanitized name itself starts
with `___`, which survives as the first three characters of the output. -/
theorem mcp_C5_counterexample :
    (sanitizeName c5raw).toList.length > 63 ∧
    resolveToolName c5raw "srv" {} = truncateName (sanitizeName c5raw) ∧
    countOccur ('_' :: '_' :: '_' :: [])
      (truncateName (sanitizeName c5raw)).toList = 2 := by
  refine ⟨by decide, rfl, by decide⟩

/-- **C5, amended.**  For every resolved candidate name longer than 63
characters, the truncated public name has length exactly 63 (hence ≤ 63),
starts with the first 28 characters of the untruncated candidate, ends with
its last 32 characters, and contains the marker `___` at least once (at
position 28); it can contain the marker more than once when the kept ends
of the candidate themselves contain `___`. -/
theorem mcp_C5_amended (s : String) (h : s.toList.length > 63) :
    (truncateName s).toList.length = 63 ∧
    (truncateName s).toList.take 28 = s.toList.take 28 ∧
    (truncateName s).toList.drop 31 = s.toList.drop (s.toList.length - 32) ∧
    1 ≤ countOccur ('_' :: '_' :: '_' :: []) (truncateName s).toList := by
  have htr : (truncateName s).toList
      = s.toList.take 28 ++ ('_' :: '_' :: '_' :: [])
        ++ s.toList.drop (s.toList.length - 32) := by
    unfold truncateName
    rw [if_pos h]
    rfl
  set A := s.toList.take 28 with hA
  set M := ('_' :: '_' :: '_' :: []) with hM
  set B := s.toList.drop (s.toList.length - 32) with hB
  have hAlen : A.length = 28 := by
    rw [hA, List.length_take]; omega
  have hMlen : M.length = 3 := by rw [hM]; rfl
  have hBlen : B.length = 32 := by
    rw [hB, List.length_drop]; omega
  have hlen : (truncateName s).toList.length = 63 := by
    rw [htr]; simp [hAlen, hMlen, hBlen]
  refine ⟨hlen, ?_, ?_, ?_⟩
  · rw [htr]
    rw [List.take_append_of_le_length (by simp [hAlen, hMlen])]
    rw [List.take_append_of_le_length (by omega)]
    rw [List.take_of_length_le (le_of_eq hAlen)]
  · rw [htr]
    have h31 : (31 : Nat) = (A ++ M).length := by simp [hAlen, hMlen]
    rw [h31, List.drop_left]
  · have hdrop28 : (truncateName s).toList.drop 28 = M ++ B := by
      rw [htr, List.append_assoc]
      have h28 : (28 : Nat) = A.length := hAlen.symm
      rw [h28, List.drop_left]
    have hmem : 28 ∈ List.range (truncateName s).toList.length := by
      rw [hlen]; simp
    have hpred : M.isPrefixOf ((truncateName s).toList.drop 28) = true := by
      rw [hdrop28]
      exact List.isPrefixOf_iff_prefix.mpr (List.prefix_append M B)
    unfold countOccur
    have hpos : 0 < (List.range (truncateName s).toList.length).countP
        (fun i => M.isPrefixOf ((truncateName s).toList.drop i)) :=
      List.countP_pos_iff.mpr ⟨28, hmem, hpred⟩
    omega

/-- Witness for `mcp_C5_amended` at a concrete 64-character candidate. -/
theorem mcp_C5_amended_witness :
    (sanitizeName c5raw).toList.length > 63 ∧
    ((truncateName (sanitizeName c5raw)).toList.length = 63 ∧
     (truncateName (sanitizeName c5raw)).toList.take 28
       = (sanitizeName c5raw).toList.take 28 ∧
     (truncateName (sanitizeName c5raw)).toList.drop 31
       = (sanitizeName c5raw).toList.drop
           ((sanitizeName c5raw).toList.length - 32) ∧
     1 ≤ countOccur ('_' :: '_' :: '_' :: [])
           (truncateName (sanitizeName c5raw)).toList) :=
  ⟨by decide, mcp_C5_amended (sanitizeName c5raw) (by decide)⟩

/-! ## Claim C1: the registered name of a discovered prompt -/

/-- **C1, counterexample.**  Running discovery for server `alpha`
(prompts capability only, one prompt named `Review Code!`) registers the
prompt in the prompts registry under the key `alpha:Review Code!` with its
raw name; nothing is registered under the public name
`alpha__Review_Code_`. -/
theorem mcp_C1_counterexample :
    alphaRun.2.1.mcpPromptsRegistry
      = [("alpha:Review Code!",
          { name := "Review Code!", description := none, arguments := none,
            serverName := "alpha" })] ∧
    mapGet alphaRun.2.1.mcpPromptsRegistry "alpha__Review_Code_" = none := by
  exact ⟨by decide, by decide⟩

/-- **C1, amended.**  After discovery completes for server `alpha`, the
prompt is stored in the prompts registry under the key
`alpha:Review Code!` (server name, colon, raw prompt name) carrying its raw
name, and the server ends CONNECTED; the sanitizing/prefixing function
`promptToSlashCommandName` does map it to `alpha__Review_Code_`, but that
name is not used as the registration key. -/
theorem mcp_C1_amended :
    alphaRun.2.1.mcpPromptsRegistry
      = [("alpha:Review Code!",
          { name := "Review Code!", description := none, arguments := none,
            serverName := "alpha" })] ∧
    getMCPServerStatus alphaRun.2.1 "alpha" = .CONNECTED ∧
    promptToSlashCommandName "alpha" "Review Code!" = "alpha__Review_Code_" := by
  exact ⟨by decide, by decide, by decide⟩

/-! ## Claim C6: determinism and collision resolution -/

/-- **C6, counterexample.**  Two different raw names from two different
servers that sanitize to the same 70-character name resolve to the *same*
public name, not distinct ones: the collision lookup consults the registry
with the untruncated sanitized name, while the first registration was
stored under its truncated form, so the second server's lookup misses and
no `serverName__` prefix is applied. -/
theorem mcp_C6_counterexample :
    c6raw1 ≠ c6raw2 ∧
    sanitizeName c6raw1 = sanitizeName c6raw2 ∧
    resolveToolName c6raw2 "s2" c6reg1 = resolveToolName c6raw1 "s1" {} := by
  exact ⟨by decide, by decide, by decide⟩

/-- **C6, amended.**  Resolution is a pure function of the raw name, the
server name and the registry snapshot (it is a Lean function of exactly
those three arguments).  When two raw names normalize to the same sanitized
name, *and no truncation interferes* (the sanitized name and the prefixed
candidate both fit in 63 characters), the first resolution keeps the
unprefixed sanitized name and the second — performed after the first tool
was registered — receives the `serverName__` prefix, so the two public
names are distinct. -/
theorem mcp_C6_amended (raw1 raw2 server1 server2 : String)
    (reg : ToolRegistry) (t : DiscoveredMCPTool)
    (hnorm : sanitizeName raw1 = sanitizeName raw2)
    (hfresh : reg.getTool (sanitizeName raw1) = none)
    (hshort : (sanitizeName raw1).toList.length ≤ 63)
    (hshort2 : (server2 ++ "__" ++ sanitizeName raw2).toList.length ≤ 63)
    (hname : t.nameForModel = resolveToolName raw1 server1 reg) :
    resolveToolName raw1 server1 reg = sanitizeName raw1 ∧
    resolveToolName raw2 server2 (reg.registerTool t)
      = server2 ++ "__" ++ sanitizeName raw2 ∧
    resolveToolName raw2 server2 (reg.registerTool t)
      ≠ resolveToolName raw1 server1 reg := by
  have h1 : resolveToolName raw1 server1 reg = sanitizeName raw1 := by
    unfold resolveToolName
    simp only [hfresh]
    unfold truncateName
    rw [if_neg (by omega)]
  have hkey : t.nameForModel = sanitizeName raw2 := by
    rw [hname, h1, hnorm]
  have hget : (reg.registerTool t).getTool (sanitizeName raw2) = some t := by
    unfold ToolRegistry.getTool ToolRegistry.registerTool
    rw [← hkey]
    exact mapGet_mapSet_self _ _ _
  have h2 : resolveToolName raw2 server2 (reg.registerTool t)
      = server2 ++ "__" ++ sanitizeName raw2 := by
    unfold resolveToolName
    simp only [hget]
    unfold truncateName
    rw [if_neg (by omega)]
  refine ⟨h1, h2, ?_⟩
  rw [h1, h2, ← hnorm]
  intro hcontra
  have hlen := congrArg (fun x : String => x.data.length) hcontra
  have hdd : ("__" : String).data = ['_', '_'] := rfl
  simp only [String.data_append, List.length_append, hdd, List.length_cons,
    List.length_nil] at hlen
  omega

/-- Witness for `mcp_C6_amended`: the spec's scenario B, raw name `search`
exposed by `svc1` and `svc2`. -/
theorem mcp_C6_amended_witness :
    resolveToolName "search" "svc1" ({} : ToolRegistry) = sanitizeName "search" ∧
    resolveToolName "search" "svc2" (ToolRegistry.registerTool {} c6tW)
      = "svc2" ++ "__" ++ sanitizeName "search" ∧
    resolveToolName "search" "svc2" (ToolRegistry.registerTool {} c6tW)
      ≠ resolveToolName "search" "svc1" {} :=
  mcp_C6_amended "search" "search" "svc1" "svc2" {} c6tW rfl (by decide)
    (by decide) (by decide) (by decide)

/-! ## Claim C7: deny-list versus allow-list -/

/-- **C7, counterexample.**  A *prompt* named `p`, admitted because the
server has no allow-list but exactly matched by the deny-list entry `p`, is
registered anyway: the include/exclude filtering of mcp-client.ts is
applied to tools only, prompts are never filtered. -/
theorem mcp_C7_counterexample :
    (c7cfg.excludeTools.getD []).contains "p" = true ∧
    c7cfg.includeTools = none ∧
    mapGet c7run.2.1.mcpPromptsRegistry "srv:p"
      = some { name := "p", description := none, arguments := none,
               serverName := "srv" } := by
  exact ⟨by decide, by decide, by decide⟩

/-- **C7, amended.**  For *tools* the deny-list strictly dominates the
allow-list: a tool whose raw name matches a deny-list entry is never
registered, regardless of the allow-list; discovered *prompts* are not
subject to the allow/deny filtering at all. -/
theorem mcp_C7_amended (serverName : String) (cfg : MCPServerConfig)
    (reg : ToolRegistry) (d : FuncDecl) (ex : List String)
    (hex : cfg.excludeTools = some ex) (hmem : d.name ∈ ex) :
    toolIsEnabled cfg d.name = false ∧
    registerOneTool serverName cfg reg d = reg := by
  have he : toolIsEnabled cfg d.name = false := by
    unfold toolIsEnabled
    rw [hex]
    simp [hmem]
  refine ⟨he, ?_⟩
  by_cases hn : d.name = "" <;> simp [registerOneTool, hn, he]

/-- Witness for `mcp_C7_amended`: deny-listed tool `p` under config
`c7cfg` is not registered. -/
theorem mcp_C7_amended_witness :
    toolIsEnabled c7cfg "p" = false ∧
    registerOneTool "srv" c7cfg {} { name := "p" } = ({} : ToolRegistry) :=
  mcp_C7_amended "srv" c7cfg {} { name := "p" } ["p"] rfl (by decide)

/-! ## Claim C9: redacted logging on connect failure -/

/-- **C9.**  For two configurations that differ only in `headers`, `env`
and `args`, a failed connect attempt produces bit-identical behavior: the
whole run result (hence the logged redacted summary) is the same, the
summary consists of exactly the six non-secret fields, and the status is
forced to DISCONNECTED. -/
theorem mcp_C9 (serverName : String) (cfg1 cfg2 : MCPServerConfig)
    (beh : ServerBehavior) (st : McpState)
    (hcommand : cfg1.command = cfg2.command) (hurl : cfg1.url = cfg2.url)
    (hhttp : cfg1.httpUrl = cfg2.httpUrl) (hcwd : cfg1.cwd = cfg2.cwd)
    (htimeout : cfg1.timeout = cfg2.timeout) (htrust : cfg1.trust = cfg2.trust)
    (hincl : cfg1.includeTools = cfg2.includeTools)
    (hexcl : cfg1.excludeTools = cfg2.excludeTools)
    (hvalid : (transportKind cfg1).isSome = true)
    (hurlok : beh.urlOk = true) (hfail : beh.connectOk = false) :
    connectAndDiscover serverName cfg1 beh st
      = connectAndDiscover serverName cfg2 beh st ∧
    (connectAndDiscover serverName cfg1 beh st).1.log
      = st.log ++ [LogEntry.connectFailed serverName (safeConfigOf cfg1)
          beh.connectErrMsg] ∧
    getMCPServerStatus (connectAndDiscover serverName cfg1 beh st).1 serverName
      = .DISCONNECTED := by
  obtain ⟨kind, hk⟩ := Option.isSome_iff_exists.mp hvalid
  have htk : transportKind cfg2 = some kind := by
    unfold transportKind at hk ⊢
    rw [← hhttp, ← hurl, ← hcommand]
    exact hk
  have hsafe : safeConfigOf cfg2 = safeConfigOf cfg1 := by
    unfold safeConfigOf
    rw [hcommand, hurl, hhttp, hcwd, htimeout, htrust]
  have hrun : ∀ cfg, transportKind cfg = some kind →
      safeConfigOf cfg = safeConfigOf cfg1 →
      connectAndDiscover serverName cfg beh st
        = (updateMCPServerStatus serverName .DISCONNECTED
            (logEntry (.connectFailed serverName (safeConfigOf cfg1)
              beh.connectErrMsg)
              (updateMCPServerStatus serverName .CONNECTING st)), none) := by
    intro cfg hkc hsc
    unfold connectAndDiscover
    rw [hkc]
    simp [hurlok, hfail, hsc]
  refine ⟨?_, ?_, ?_⟩
  · rw [hrun cfg1 hk rfl, hrun cfg2 htk hsafe]
  · rw [hrun cfg1 hk rfl]
    simp [updateMCPServerStatus, logEntry]
  · rw [hrun cfg1 hk rfl]
    simp [getMCPServerStatus, updateMCPServerStatus, mapGet_mapSet_self]

/-- Witness for `mcp_C9`: the secrets of `c9cfg1` never reach the log. -/
theorem mcp_C9_witness :
    connectAndDiscover "api" c9cfg1 c9beh {}
      = connectAndDiscover "api" c9cfg2 c9beh {} ∧
    (connectAndDiscover "api" c9cfg1 c9beh {}).1.log
      = ({} : McpState).log
        ++ [LogEntry.connectFailed "api" (safeConfigOf c9cfg1)
              c9beh.connectErrMsg] ∧
    getMCPServerStatus (connectAndDiscover "api" c9cfg1 c9beh {}).1 "api"
      = .DISCONNECTED :=
  mcp_C9 "api" c9cfg1 c9cfg2 c9beh {} rfl rfl rfl rfl rfl rfl rfl rfl
    (by decide) rfl rfl

/-! ## Claim C10: in-place mutation of the caller's server map -/

/-- **C10.**  With a non-empty `mcpServerCommand` that parses, the caller's
`mcpServers` record ends up with the synthesized entry under the fixed key
`mcp` — overwriting any caller-supplied server of that name, since `mapSet`
replaces an existing key — and discovery runs over that updated record. -/
theorem mcp_C10 (servers : List (String × MCPServerConfig)) (cmd : String)
    (args : List String) (behs : String → ServerBehavior) (st : McpState)
    (hcmd : cmd ≠ "") :
    (discoverMcpTools servers (some cmd) (some args) behs st).1
      = mapSet servers "mcp"
          { command := args.head?, args := some (args.drop 1) } ∧
    mapGet (discoverMcpTools servers (some cmd) (some args) behs st).1 "mcp"
      = some { command := args.head?, args := some (args.drop 1) } ∧
    (discoverMcpTools servers (some cmd) (some args) behs st).2.1
      = setDiscoveryState .COMPLETED
          (runTasks behs
            (mapSet servers "mcp"
              { command := args.head?, args := some (args.drop 1) })
            (setDiscoveryState .IN_PROGRESS st)).1 := by
  have ht : truthy (some cmd) = true := by simp [truthy, hcmd]
  refine ⟨?_, ?_, ?_⟩ <;>
    simp only [discoverMcpTools, ht, if_true]
  exact mapGet_mapSet_self _ _ _

/-- Witness for `mcp_C10`: the caller's `mcp` entry is overwritten by the
synthesized one before discovery runs. -/
theorem mcp_C10_witness :
    (discoverMcpTools c10servers (some "npx serve") (some ["npx", "serve"])
        (fun _ => {}) {}).1
      = mapSet c10servers "mcp" c10synth ∧
    mapGet (discoverMcpTools c10servers (some "npx serve")
        (some ["npx", "serve"]) (fun _ => {}) {}).1 "mcp" = some c10synth ∧
    (discoverMcpTools c10servers (some "npx serve") (some ["npx", "serve"])
        (fun _ => {}) {}).2.1
      = setDiscoveryState .COMPLETED
          (runTasks (fun _ => {}) (mapSet c10servers "mcp" c10synth)
            (setDiscoveryState .IN_PROGRESS {})).1 :=
  mcp_C10 c10servers "npx serve" ["npx", "serve"] (fun _ => {}) {} (by decide)

/-! Field-effect lemmas for the state primitives. -/

@[simp] theorem updateStatus_prompts (n s st) :
    (updateMCPServerStatus n s st).mcpPromptsRegistry = st.mcpPromptsRegistry := rfl
@[simp] theorem updateStatus_tools (n s st) :
    (updateMCPServerStatus n s st).toolRegistry = st.toolRegistry := rfl
@[simp] theorem updateStatus_ds (n s st) :
    (updateMCPServerStatus n s st).mcpDiscoveryState = st.mcpDiscoveryState := rfl
@[simp] theorem updateStatus_writes (n s st) :
    (updateMCPServerStatus n s st).discoveryStateWrites = st.discoveryStateWrites := rfl
@[simp] theorem updateStatus_closed (n s st) :
    (updateMCPServerStatus n s st).closedTransports = st.closedTransports := rfl
@[simp] theorem updateStatus_log (n s st) :
    (updateMCPServerStatus n s st).log = st.log := rfl
@[simp] theorem updateStatus_statuses (n s st) :
    (updateMCPServerStatus n s st).mcpServerStatusesInternal
      = mapSet st.mcpServerStatusesInternal n s := rfl

@[simp] theorem logEntry_prompts (e st) :
    (logEntry e st).mcpPromptsRegistry = st.mcpPromptsRegistry := rfl
@[simp] theorem logEntry_tools (e st) :
    (logEntry e st).toolRegistry = st.toolRegistry := rfl
@[simp] theorem logEntry_ds (e st) :
    (logEntry e st).mcpDiscoveryState = st.mcpDiscoveryState := rfl
@[simp] theorem logEntry_writes (e st) :
    (logEntry e st).discoveryStateWrites = st.discoveryStateWrites := rfl
@[simp] theorem logEntry_closed (e st) :
    (logEntry e st).closedTransports = st.closedTransports := rfl
@[simp] theorem logEntry_statuses (e st) :
    (logEntry e st).mcpServerStatusesInternal = st.mcpServerStatusesInternal := rfl
@[simp] theorem logEntry_log (e st) :
    (logEntry e st).log = st.log ++ [e] := rfl

@[simp] theorem setDiscoveryState_statuses (s st) :
    (setDiscoveryState s st).mcpServerStatusesInternal
      = st.mcpServerStatusesInternal := rfl
@[simp] theorem setDiscoveryState_prompts (s st) :
    (setDiscoveryState s st).mcpPromptsRegistry = st.mcpPromptsRegistry := rfl
@[simp] theorem setDiscoveryState_tools (s st) :
    (setDiscoveryState s st).toolRegistry = st.toolRegistry := rfl
@[simp] theorem setDiscoveryState_closed (s st) :
    (setDiscoveryState s st).closedTransports = st.closedTransports := rfl
@[simp] theorem setDiscoveryState_ds (s st) :
    (setDiscoveryState s st).mcpDiscoveryState = s := rfl
@[simp] theorem setDiscoveryState_writes (s st) :
    (setDiscoveryState s st).discoveryStateWrites
      = st.discoveryStateWrites ++ [s] := rfl

/-! Phase frame lemmas. -/

theorem toolDiscoveryPhase_frame (n cfg beh st) :
    (toolDiscoveryPhase n cfg beh st).mcpServerStatusesInternal
      = st.mcpServerStatusesInternal ∧
    (toolDiscoveryPhase n cfg beh st).mcpPromptsRegistry
      = st.mcpPromptsRegistry ∧
    (toolDiscoveryPhase n cfg beh st).closedTransports
      = st.closedTransports ∧
    (toolDiscoveryPhase n cfg beh st).mcpDiscoveryState
      = st.mcpDiscoveryState ∧
    (toolDiscoveryPhase n cfg beh st).discoveryStateWrites
      = st.discoveryStateWrites := by
  unfold toolDiscoveryPhase
  cases hct : beh.capTools
  · simp
  · rcases htr : beh.toolsResult with e | o
    · simp
    · cases o <;> simp

theorem toolDiscoveryPhase_toolRegistry (n cfg beh st) :
    (toolDiscoveryPhase n cfg beh st).toolRegistry
      = toolPhaseRegistry n cfg beh st.toolRegistry := by
  unfold toolDiscoveryPhase toolPhaseRegistry
  cases hct : beh.capTools
  · simp
  · rcases htr : beh.toolsResult with e | o
    · simp
    · cases o <;> simp

theorem promptDiscoveryPhase_frame (n beh st) :
    (promptDiscoveryPhase n beh st).mcpServerStatusesInternal
      = st.mcpServerStatusesInternal ∧
    (promptDiscoveryPhase n beh st).toolRegistry = st.toolRegistry ∧
    (promptDiscoveryPhase n beh st).closedTransports = st.closedTransports ∧
    (promptDiscoveryPhase n beh st).mcpDiscoveryState = st.mcpDiscoveryState ∧
    (promptDiscoveryPhase n beh st).discoveryStateWrites
      = st.discoveryStateWrites := by
  unfold promptDiscoveryPhase
  cases hcp : beh.capPrompts
  · simp
  · rcases hpr : beh.promptsResult with e | o
    · simp
    · cases o with
      | none => simp
      | some ps =>
          by_cases hb : (List.foldl (registerOnePrompt n)
            (st.mcpPromptsRegistry, false) ps).2 = true <;> simp [hb]

theorem idleCheckPhase_frame (n beh st) :
    ((idleCheckPhase n beh st).1.mcpPromptsRegistry = st.mcpPromptsRegistry) ∧
    ((idleCheckPhase n beh st).1.toolRegistry = st.toolRegistry) ∧
    ((idleCheckPhase n beh st).1.mcpDiscoveryState = st.mcpDiscoveryState) ∧
    ((idleCheckPhase n beh st).1.discoveryStateWrites
      = st.discoveryStateWrites) := by
  by_cases h2 : beh.closeOk = true <;>
    by_cases h1 : (!decide ((st.toolRegistry.getToolsByServer n).length > 0)
        && !(st.mcpPromptsRegistry.any fun p => decide (p.2.serverName = n)))
      = true <;>
    simp [idleCheckPhase, h1, h2]

/-! Branch equations for `connectAndDiscover`. -/

theorem connectAndDiscover_invalid_eq (n cfg beh st)
    (hk : transportKind cfg = none) :
    connectAndDiscover n cfg beh st
      = (updateMCPServerStatus n .DISCONNECTED
          (logEntry (.invalidConfig n)
            (updateMCPServerStatus n .CONNECTING st)), none) := by
  unfold connectAndDiscover
  rw [hk]

theorem connectAndDiscover_urlthrow_eq (n cfg beh st) (kind : TransportKind)
    (hk : transportKind cfg = some kind)
    (hg : ((kind = TransportKind.streamableHttp
        || kind = TransportKind.sse) && !beh.urlOk) = true) :
    connectAndDiscover n cfg beh st
      = (updateMCPServerStatus n .CONNECTING st, some "Invalid URL") := by
  unfold connectAndDiscover
  rw [hk]
  simp [hg]

theorem connectAndDiscover_connfail_eq (n cfg beh st) (kind : TransportKind)
    (hk : transportKind cfg = some kind)
    (hg : ((kind = TransportKind.streamableHttp
        || kind = TransportKind.sse) && !beh.urlOk) = false)
    (hconn : beh.connectOk = false) :
    connectAndDiscover n cfg beh st
      = (updateMCPServerStatus n .DISCONNECTED
          (logEntry (.connectFailed n (safeConfigOf cfg) beh.connectErrMsg)
            (updateMCPServerStatus n .CONNECTING st)), none) := by
  unfold connectAndDiscover
  rw [hk]
  simp [hg, hconn]

theorem connectAndDiscover_success_eq (n cfg beh st) (kind : TransportKind)
    (hk : transportKind cfg = some kind)
    (hg : ((kind = TransportKind.streamableHttp
        || kind = TransportKind.sse) && !beh.urlOk) = false)
    (hconn : beh.connectOk = true) :
    connectAndDiscover n cfg beh st
      = idleCheckPhase n beh
          (promptDiscoveryPhase n beh
            (toolDiscoveryPhase n cfg beh
              (updateMCPServerStatus n .CONNECTED
                (updateMCPServerStatus n .CONNECTING st)))) := by
  unfold connectAndDiscover
  rw [hk]
  simp [hg, hconn]

theorem connectAndDiscover_ds (n cfg beh st) :
    (connectAndDiscover n cfg beh st).1.mcpDiscoveryState
      = st.mcpDiscoveryState ∧
    (connectAndDiscover n cfg beh st).1.discoveryStateWrites
      = st.discoveryStateWrites := by
  cases htk : transportKind cfg with
  | none => rw [connectAndDiscover_invalid_eq n cfg beh st htk]; exact ⟨rfl, rfl⟩
  | some kind =>
      cases hg : ((kind = TransportKind.streamableHttp
          || kind = TransportKind.sse) && !beh.urlOk) with
      | true =>
          rw [connectAndDiscover_urlthrow_eq n cfg beh st kind htk hg]
          exact ⟨rfl, rfl⟩
      | false =>
          cases hconn : beh.connectOk with
          | false =>
              rw [connectAndDiscover_connfail_eq n cfg beh st kind htk hg hconn]
              exact ⟨rfl, rfl⟩
          | true =>
              rw [connectAndDiscover_success_eq n cfg beh st kind htk hg hconn]
              have h1 := toolDiscoveryPhase_frame n cfg beh
                (updateMCPServerStatus n .CONNECTED
                  (updateMCPServerStatus n .CONNECTING st))
              have h2 := promptDiscoveryPhase_frame n beh
                (toolDiscoveryPhase n cfg beh
                  (updateMCPServerStatus n .CONNECTED
                    (updateMCPServerStatus n .CONNECTING st)))
              have h3 := idleCheckPhase_frame n beh
                (promptDiscoveryPhase n beh
                  (toolDiscoveryPhase n cfg beh
                    (updateMCPServerStatus n .CONNECTED
                      (updateMCPServerStatus n .CONNECTING st))))
              obtain ⟨-, -, -, h1d, h1w⟩ := h1
              obtain ⟨-, -, -, h2d, h2w⟩ := h2
              obtain ⟨-, -, h3d, h3w⟩ := h3
              exact ⟨by rw [h3d, h2d, h1d, updateStatus_ds, updateStatus_ds],
                by rw [h3w, h2w, h1w, updateStatus_writes, updateStatus_writes]⟩

theorem runTasks_ds (behs) (l : List (String × MCPServerConfig)) (st : McpState) :
    (runTasks behs l st).1.mcpDiscoveryState = st.mcpDiscoveryState ∧
    (runTasks behs l st).1.discoveryStateWrites = st.discoveryStateWrites := by
  induction l generalizing st with
  | nil => exact ⟨rfl, rfl⟩
  | cons hd tl ih =>
      obtain ⟨n, cfg⟩ := hd
      have h1 := connectAndDiscover_ds n cfg (behs n) st
      have h2 := ih (connectAndDiscover n cfg (behs n) st).1
      unfold runTasks
      exact ⟨h2.1.trans h1.1, h2.2.trans h1.2⟩

theorem runTasks_cons (behs : String → ServerBehavior) (n : String)
    (cfg : MCPServerConfig) (tl : List (String × MCPServerConfig))
    (st : McpState) :
    runTasks behs ((n, cfg) :: tl) st
      = ((runTasks behs tl (connectAndDiscover n cfg (behs n) st).1).1,
         (connectAndDiscover n cfg (behs n) st).2
           <|> (runTasks behs tl (connectAndDiscover n cfg (behs n) st).1).2)
    := rfl

theorem idleCheckPhase_no_reject (n beh st) (hc : beh.closeOk = true) :
    (idleCheckPhase n beh st).2 = none := by
  by_cases h1 : (!decide ((st.toolRegistry.getToolsByServer n).length > 0)
      && !(st.mcpPromptsRegistry.any fun p => decide (p.2.serverName = n)))
    = true <;>
  simp [idleCheckPhase, h1, hc]

theorem connectAndDiscover_no_reject (n cfg beh st)
    (hu : beh.urlOk = true) (hc : beh.closeOk = true) :
    (connectAndDiscover n cfg beh st).2 = none := by
  cases htk : transportKind cfg with
  | none => rw [connectAndDiscover_invalid_eq n cfg beh st htk]
  | some kind =>
      have hg : ((kind = TransportKind.streamableHttp
          || kind = TransportKind.sse) && !beh.urlOk) = false := by
        simp [hu]
      cases hconn : beh.connectOk with
      | false => rw [connectAndDiscover_connfail_eq n cfg beh st kind htk hg hconn]
      | true =>
          rw [connectAndDiscover_success_eq n cfg beh st kind htk hg hconn]
          exact idleCheckPhase_no_reject n beh _ hc

theorem runTasks_no_reject (behs) (l : List (String × MCPServerConfig)) (st)
    (hbeh : ∀ x, (behs x).urlOk = true ∧ (behs x).closeOk = true) :
    (runTasks behs l st).2 = none := by
  induction l generalizing st with
  | nil => rfl
  | cons hd tl ih =>
      obtain ⟨n, cfg⟩ := hd
      rw [runTasks_cons,
        connectAndDiscover_no_reject n cfg (behs n) st (hbeh n).1 (hbeh n).2,
        ih _]
      rfl

/-- **C3, amended.**  Errors from connecting, tool listing and prompt
listing are contained inside each server task; when additionally every
`new URL` construction succeeds and every `transport.close()` call
resolves — and the synthesized command string, if present, parses — no
error propagates out of `discoverMcpTools`.  (The counterexample shows the
remaining throw points, URL construction and transport close, do
propagate.) -/
theorem mcp_C3_amended (servers : List (String × MCPServerConfig))
    (cmd : Option String) (parsed : Option (List String))
    (behs : String → ServerBehavior) (st : McpState)
    (hbeh : ∀ x, (behs x).urlOk = true ∧ (behs x).closeOk = true)
    (hparse : truthy cmd = true → ∃ args, parsed = some args) :
    (discoverMcpTools servers cmd parsed behs st).2.2 = none := by
  by_cases ht : truthy cmd = true
  · obtain ⟨args, hargs⟩ := hparse ht
    subst hargs
    simp only [discoverMcpTools, ht, if_true]
    exact runTasks_no_reject behs _ _ hbeh
  · simp only [discoverMcpTools, Bool.not_eq_true] at ht ⊢
    simp only [ht, Bool.false_eq_true, if_false]
    exact runTasks_no_reject behs _ _ hbeh

/-- **C4.**  For every input — any server map (including the empty one),
any command string, any parse result, any behaviors, any starting state —
`discoverMcpTools` writes IN_PROGRESS exactly at entry and COMPLETED
exactly at exit and nothing in between (the write trace of the call is
`[IN_PROGRESS, COMPLETED]`, whether the call returns normally or rethrows
an error), and the state read immediately after the call is COMPLETED. -/
theorem mcp_C4 (servers : List (String × MCPServerConfig))
    (cmd : Option String) (parsed : Option (List String))
    (behs : String → ServerBehavior) (st : McpState) :
    (discoverMcpTools servers cmd parsed behs st).2.1.mcpDiscoveryState
      = .COMPLETED ∧
    (discoverMcpTools servers cmd parsed behs st).2.1.discoveryStateWrites
      = st.discoveryStateWrites
        ++ [MCPDiscoveryState.IN_PROGRESS, MCPDiscoveryState.COMPLETED] := by
  by_cases ht : truthy cmd = true
  · cases parsed with
    | none =>
        simp [discoverMcpTools, ht]
    | some args =>
        have h := runTasks_ds behs
          (mapSet servers "mcp" { command := args.head?, args := some (args.drop 1) })
          (setDiscoveryState .IN_PROGRESS st)
        simp only [discoverMcpTools, ht, if_true]
        refine ⟨rfl, ?_⟩
        rw [setDiscoveryState_writes, h.2, setDiscoveryState_writes,
          List.append_assoc]
        rfl
  · have h := runTasks_ds behs servers (setDiscoveryState .IN_PROGRESS st)
    simp only [Bool.not_eq_true] at ht
    simp only [discoverMcpTools, ht, Bool.false_eq_true, if_false]
    refine ⟨rfl, ?_⟩
    rw [setDiscoveryState_writes, h.2, setDiscoveryState_writes,
      List.append_assoc]
    rfl

/-- **C3, counterexample.**  With no `mcpServerCommand` at all, a single
server whose transport connects but whose `close()` call rejects (the
server contributed no artifacts, so the idle teardown closes it) makes
`discoverMcpTools` rethrow the task's error: the call does not complete
normally, refuting the claim that only a failing command parse can escape.
The discovery state is still COMPLETED. -/
theorem mcp_C3_counterexample :
    (discoverMcpTools [("s", c3cfg)] none none (fun _ => c3beh) {}).2.2
      = some "transport close failed" ∧
    (discoverMcpTools [("s", c3cfg)] none none
        (fun _ => c3beh) {}).2.1.mcpDiscoveryState = .COMPLETED := by
  exact ⟨by decide, by decide⟩

/-- Witness for `mcp_C3_amended`: two servers, one failing to connect and
one with an invalid configuration, plus a parsed command string; the batch
still resolves without error. -/
theorem mcp_C3_amended_witness :
    (discoverMcpTools
        [("bad", { command := some "x" }), ("none", {})]
        (some "npx serve") (some ["npx", "serve"])
        (fun _ => { connectOk := false }) {}).2.2 = none :=
  mcp_C3_amended [("bad", { command := some "x" }), ("none", {})]
    (some "npx serve") (some ["npx", "serve"])
    (fun _ => { connectOk := false }) {}
    (fun _ => ⟨rfl, rfl⟩) (fun _ => ⟨["npx", "serve"], rfl⟩)

/-- **C8, amended.**  When a server advertises the prompts capability and
the prompt-list request fails, the failure is logged as a capability
mismatch, the task completes without rejecting, prompts are untouched and
every tool registered earlier in the same task remains registered; the
server stays CONNECTED *provided at least one tool was registered for it* —
otherwise the idle-teardown closes the connection and forces DISCONNECTED
(the counterexample). -/
theorem mcp_C8_amended (serverName : String) (cfg : MCPServerConfig)
    (beh : ServerBehavior) (st : McpState) (kind : TransportKind) (e : String)
    (hk : transportKind cfg = some kind)
    (hurlok : beh.urlOk = true) (hconn : beh.connectOk = true)
    (hcap : beh.capPrompts = true) (hpr : beh.promptsResult = .error e)
    (htools : (toolPhaseRegistry serverName cfg beh
        st.toolRegistry).getToolsByServer serverName ≠ []) :
    (connectAndDiscover serverName cfg beh st).2 = none ∧
    getMCPServerStatus (connectAndDiscover serverName cfg beh st).1 serverName
      = .CONNECTED ∧
    (connectAndDiscover serverName cfg beh st).1.toolRegistry
      = toolPhaseRegistry serverName cfg beh st.toolRegistry ∧
    (connectAndDiscover serverName cfg beh st).1.mcpPromptsRegistry
      = st.mcpPromptsRegistry ∧
    LogEntry.promptListFailed serverName e
      ∈ (connectAndDiscover serverName cfg beh st).1.log := by
  have hg : ((kind = TransportKind.streamableHttp
      || kind = TransportKind.sse) && !beh.urlOk) = false := by simp [hurlok]
  rw [connectAndDiscover_success_eq serverName cfg beh st kind hk hg hconn]
  set st2 := updateMCPServerStatus serverName .CONNECTED
    (updateMCPServerStatus serverName .CONNECTING st) with hst2
  set st3 := toolDiscoveryPhase serverName cfg beh st2 with hst3
  have hreg3 : st3.toolRegistry
      = toolPhaseRegistry serverName cfg beh st.toolRegistry := by
    rw [hst3, toolDiscoveryPhase_toolRegistry, hst2, updateStatus_tools,
      updateStatus_tools]
  have hprompts3 : st3.mcpPromptsRegistry = st.mcpPromptsRegistry := by
    rw [hst3, (toolDiscoveryPhase_frame serverName cfg beh st2).2.1, hst2,
      updateStatus_prompts, updateStatus_prompts]
  have hstat3 : st3.mcpServerStatusesInternal
      = mapSet (mapSet st.mcpServerStatusesInternal serverName .CONNECTING)
          serverName .CONNECTED := by
    rw [hst3, (toolDiscoveryPhase_frame serverName cfg beh st2).1, hst2,
      updateStatus_statuses, updateStatus_statuses]
  have hpp : promptDiscoveryPhase serverName beh st3
      = logEntry (.promptListFailed serverName e) st3 := by
    unfold promptDiscoveryPhase
    rw [hcap, hpr]
    rfl
  rw [hpp]
  have hpos : (st3.toolRegistry.getToolsByServer serverName).length > 0 := by
    rw [hreg3]
    exact List.length_pos.mpr htools
  have hidle : idleCheckPhase serverName beh
      (logEntry (.promptListFailed serverName e) st3)
      = (logEntry (.promptListFailed serverName e) st3, none) := by
    unfold idleCheckPhase
    rw [logEntry_tools]
    simp [hpos]
  rw [hidle]
  refine ⟨rfl, ?_, ?_, ?_, ?_⟩
  · unfold getMCPServerStatus
    rw [logEntry_statuses, hstat3, mapGet_mapSet_self]
    rfl
  · rw [logEntry_tools, hreg3]
  · rw [logEntry_prompts, hprompts3]
  · rw [logEntry_log]
    exact List.mem_append_right _ (List.mem_singleton.mpr rfl)

/-- **C8, counterexample.**  A server that advertises only prompts,
connects successfully, and whose prompt-list call fails ends DISCONNECTED,
not CONNECTED: with zero tools and zero prompts registered, the idle
teardown closes its transport, contradicting the claim that the server is
not disconnected. -/
theorem mcp_C8_counterexample :
    c8beh.connectOk = true ∧
    getMCPServerStatus (connectAndDiscover "srv" c8cfg c8beh {}).1 "srv"
      = .DISCONNECTED ∧
    "srv" ∈ (connectAndDiscover "srv" c8cfg c8beh {}).1.closedTransports ∧
    LogEntry.promptListFailed "srv" "boom"
      ∈ (connectAndDiscover "srv" c8cfg c8beh {}).1.log := by
  exact ⟨by decide, by decide, by decide, by decide⟩

/-- Witness for `mcp_C8_amended`: spec scenario C — the tool phase
registered one tool, the prompt-list call fails, the server stays
CONNECTED with that tool still registered. -/
theorem mcp_C8_amended_witness :
    (connectAndDiscover "srv" c8cfg c8wBeh {}).2 = none ∧
    getMCPServerStatus (connectAndDiscover "srv" c8cfg c8wBeh {}).1 "srv"
      = .CONNECTED ∧
    (connectAndDiscover "srv" c8cfg c8wBeh {}).1.toolRegistry
      = toolPhaseRegistry "srv" c8cfg c8wBeh ({} : McpState).toolRegistry ∧
    (connectAndDiscover "srv" c8cfg c8wBeh {}).1.mcpPromptsRegistry
      = ({} : McpState).mcpPromptsRegistry ∧
    LogEntry.promptListFailed "srv" "boom"
      ∈ (connectAndDiscover "srv" c8cfg c8wBeh {}).1.log :=
  mcp_C8_amended "srv" c8cfg c8wBeh {} .stdio "boom" (by decide) rfl rfl rfl
    rfl (by decide)

theorem append_colon_inj : ∀ (a b u v : List Char), ':' ∉ a → ':' ∉ b →
    a ++ ':' :: u = b ++ ':' :: v → a = b ∧ u = v
  | [], [], u, v, _, _, h => by simpa using h
  | [], d :: bs, u, v, _, hb, h => by
      simp only [List.nil_append, List.cons_append, List.cons.injEq] at h
      exact absurd (h.1 ▸ List.mem_cons_self d bs) hb
  | c :: as, [], u, v, ha, _, h => by
      simp only [List.nil_append, List.cons_append, List.cons.injEq] at h
      exact absurd (h.1.symm ▸ List.mem_cons_self c as) ha
  | c :: as, d :: bs, u, v, ha, hb, h => by
      simp only [List.cons_append, List.cons.injEq] at h
      have ha' : ':' ∉ as := fun hx => ha (List.mem_cons_of_mem _ hx)
      have hb' : ':' ∉ bs := fun hx => hb (List.mem_cons_of_mem _ hx)
      obtain ⟨h1, h2⟩ := append_colon_inj as bs u v ha' hb' h.2
      exact ⟨by rw [h.1, h1], h2⟩

theorem promptKey_ne (n s x y : String) (hn : ':' ∉ n.data)
    (hs : ':' ∉ s.data) (hne : n ≠ s) :
    n ++ ":" ++ x ≠ s ++ ":" ++ y := by
  intro h
  have hd := congrArg String.data h
  simp only [String.data_append] at hd
  simp only [List.append_assoc, List.singleton_append] at hd
  have := (append_colon_inj n.data s.data x.data y.data hn hs hd).1
  exact hne (by cases n; cases s; exact congrArg String.mk (by simpa using this))

theorem any_false_promptKeyInv (s : String) (m : List (String × MCPPrompt))
    (hm : (m.any fun p => decide (p.2.serverName = s)) = false) :
    promptKeyInv s m := by
  intro kv hkv hsv
  have := List.any_eq_false.mp hm kv hkv
  simp [hsv] at this

theorem promptKeyInv_mapSet (s k : String) (v : MCPPrompt)
    (m : List (String × MCPPrompt)) (hki : promptKeyInv s m)
    (hv : v.serverName = s → k = s ++ ":" ++ v.name) :
    promptKeyInv s (mapSet m k v) := by
  intro kv hkv hsv
  rcases mem_mapSet hkv with h | h
  · exact hki kv h hsv
  · subst h
    exact hv hsv

theorem promptKeyInv_registerFold (n s : String) (ps : List PromptDef)
    (acc : List (String × MCPPrompt) × Bool) (hki : promptKeyInv s acc.1) :
    promptKeyInv s (List.foldl (registerOnePrompt n) acc ps).1 := by
  induction ps generalizing acc with
  | nil => exact hki
  | cons p rest ih =>
      rw [List.foldl_cons]
      apply ih
      unfold registerOnePrompt
      by_cases hp : p.name = ""
      · simpa [hp] using hki
      · simp only [hp, if_false]
        apply promptKeyInv_mapSet _ _ _ _ hki
        intro hsv
        simp only at hsv
        rw [← hsv]

theorem any_registerFold_false (n s : String) (ps : List PromptDef)
    (acc : List (String × MCPPrompt) × Bool) (hne : n ≠ s)
    (hm : (acc.1.any fun p => decide (p.2.serverName = s)) = false) :
    ((List.foldl (registerOnePrompt n) acc ps).1.any
      fun p => decide (p.2.serverName = s)) = false := by
  induction ps generalizing acc with
  | nil => exact hm
  | cons p rest ih =>
      rw [List.foldl_cons]
      apply ih
      unfold registerOnePrompt
      by_cases hp : p.name = ""
      · simpa [hp] using hm
      · simp only [hp, if_false]
        exact any_mapSet_eq_false acc.1 (n ++ ":" ++ p.name) _
          (fun x => decide (x.serverName = s)) hm (by simp [hne])

theorem registerOnePrompt_eq_skip (n : String)
    (acc : List (String × MCPPrompt) × Bool) (p : PromptDef)
    (hp : p.name = "") : registerOnePrompt n acc p = acc := by
  unfold registerOnePrompt
  rw [if_pos hp]

theorem registerOnePrompt_eq_add (n : String)
    (acc : List (String × MCPPrompt) × Bool) (p : PromptDef)
    (hp : ¬ p.name = "") :
    registerOnePrompt n acc p
      = (mapSet acc.1 (n ++ ":" ++ p.name)
          { name := p.name, description := p.description,
            arguments := p.arguments, serverName := n }, true) := by
  unfold registerOnePrompt
  rw [if_neg hp]

theorem any_registerFold_eq (n s : String) (ps : List PromptDef)
    (acc : List (String × MCPPrompt) × Bool) (hne : n ≠ s)
    (hn : ':' ∉ n.data) (hs : ':' ∉ s.data) (hki : promptKeyInv s acc.1) :
    ((List.foldl (registerOnePrompt n) acc ps).1.any
        fun p => decide (p.2.serverName = s))
      = (acc.1.any fun p => decide (p.2.serverName = s)) := by
  induction ps generalizing acc with
  | nil => rfl
  | cons p rest ih =>
      rw [List.foldl_cons]
      by_cases hp : p.name = ""
      · rw [registerOnePrompt_eq_skip n acc p hp]
        exact ih acc hki
      · rw [registerOnePrompt_eq_add n acc p hp]
        have hsafe : ∀ kv ∈ acc.1, kv.1 = (n ++ ":" ++ p.name) →
            (decide (kv.2.serverName = s)) = false := by
          intro kv hkv hkey
          by_cases hsv : kv.2.serverName = s
          · exact absurd (hkey.symm.trans (hki kv hkv hsv))
              (promptKey_ne n s p.name kv.2.name hn hs hne)
          · simp [hsv]
        have hki' : promptKeyInv s (mapSet acc.1 (n ++ ":" ++ p.name)
            { name := p.name, description := p.description,
              arguments := p.arguments, serverName := n }) := by
          apply promptKeyInv_mapSet _ _ _ _ hki
          intro hsv
          exact absurd hsv hne
        rw [ih (mapSet acc.1 (n ++ ":" ++ p.name)
          { name := p.name, description := p.description,
            arguments := p.arguments, serverName := n }, true) hki']
        exact any_mapSet_key_safe acc.1 (n ++ ":" ++ p.name)
          { name := p.name, description := p.description,
            arguments := p.arguments, serverName := n }
          (fun x => decide (x.serverName = s)) (by simp [hne]) hsafe

theorem getToolsByServer_registerTool_other (reg : ToolRegistry)
    (t : DiscoveredMCPTool) (s : String) (hne : t.serverName ≠ s) :
    (reg.registerTool t).getToolsByServer s = reg.getToolsByServer s := by
  unfold ToolRegistry.getToolsByServer ToolRegistry.registerTool
  simp only
  rw [mapGet_mapSet_ne _ _ _ _ (Ne.symm hne)]

theorem getToolsByServer_registerOneTool_other (n : String)
    (cfg : MCPServerConfig) (reg : ToolRegistry) (d : FuncDecl) (s : String)
    (hne : n ≠ s) :
    (registerOneTool n cfg reg d).getToolsByServer s
      = reg.getToolsByServer s := by
  unfold registerOneTool
  by_cases h1 : d.name = ""
  · rw [if_pos h1]
  · rw [if_neg h1]
    by_cases h2 : (!toolIsEnabled cfg d.name) = true
    · rw [if_pos h2]
    · rw [if_neg h2]
      exact getToolsByServer_registerTool_other reg _ s hne

theorem getToolsByServer_foldTools_other (n : String) (cfg : MCPServerConfig)
    (decls : List FuncDecl) (reg : ToolRegistry) (s : String) (hne : n ≠ s) :
    ((decls.foldl (registerOneTool n cfg) reg).getToolsByServer s)
      = reg.getToolsByServer s := by
  induction decls generalizing reg with
  | nil => rfl
  | cons d rest ih =>
      rw [List.foldl_cons, ih (registerOneTool n cfg reg d),
        getToolsByServer_registerOneTool_other n cfg reg d s hne]

theorem getToolsByServer_toolPhaseReg_other (n : String)
    (cfg : MCPServerConfig) (beh : ServerBehavior) (reg : ToolRegistry)
    (s : String) (hne : n ≠ s) :
    (toolPhaseRegistry n cfg beh reg).getToolsByServer s
      = reg.getToolsByServer s := by
  unfold toolPhaseRegistry
  cases hct : beh.capTools
  · simp
  · rcases htr : beh.toolsResult with e | o
    · simp
    · cases o with
      | none => simp
      | some decls =>
          simpa using getToolsByServer_foldTools_other n cfg decls reg s hne

theorem promptDiscoveryPhase_prompts_eq (n : String) (beh : ServerBehavior)
    (st : McpState) :
    (promptDiscoveryPhase n beh st).mcpPromptsRegistry = st.mcpPromptsRegistry
    ∨ ∃ ps, beh.promptsResult = .ok (some ps) ∧
        (promptDiscoveryPhase n beh st).mcpPromptsRegistry
          = (List.foldl (registerOnePrompt n)
              (st.mcpPromptsRegistry, false) ps).1 := by
  unfold promptDiscoveryPhase
  cases hcp : beh.capPrompts
  · left; rfl
  · rcases hpr : beh.promptsResult with e | o
    · left; simp
    · cases o with
      | none => left; simp
      | some ps =>
          right
          refine ⟨ps, rfl, ?_⟩
          by_cases hb : (List.foldl (registerOnePrompt n)
            (st.mcpPromptsRegistry, false) ps).2 = true <;> simp [hb]

theorem getStatus_update_other (n : String) (v : MCPServerStatus)
    (st : McpState) (s : String) (hne : s ≠ n) :
    getMCPServerStatus (updateMCPServerStatus n v st) s
      = getMCPServerStatus st s := by
  unfold getMCPServerStatus updateMCPServerStatus
  simp only
  rw [mapGet_mapSet_ne _ _ _ _ hne]

theorem getStatus_update_self (n : String) (v : MCPServerStatus)
    (st : McpState) :
    getMCPServerStatus (updateMCPServerStatus n v st) n = v := by
  unfold getMCPServerStatus updateMCPServerStatus
  simp only
  rw [mapGet_mapSet_self]
  rfl

theorem idleCheckPhase_status_other (n : String) (beh : ServerBehavior)
    (st : McpState) (s : String) (hne : s ≠ n) :
    getMCPServerStatus (idleCheckPhase n beh st).1 s
      = getMCPServerStatus st s := by
  unfold idleCheckPhase
  by_cases h1 : (!decide ((st.toolRegistry.getToolsByServer n).length > 0)
      && !(st.mcpPromptsRegistry.any fun p => decide (p.2.serverName = n)))
    = true
  · by_cases h2 : beh.closeOk = true <;>
      simp [h1, h2, getMCPServerStatus, mapGet_mapSet_ne _ _ _ _ hne]
  · simp [h1]

theorem idleCheckPhase_closed_mono (n : String) (beh : ServerBehavior)
    (st : McpState) :
    ∀ x ∈ st.closedTransports,
      x ∈ (idleCheckPhase n beh st).1.closedTransports := by
  intro x hx
  unfold idleCheckPhase
  by_cases h1 : (!decide ((st.toolRegistry.getToolsByServer n).length > 0)
      && !(st.mcpPromptsRegistry.any fun p => decide (p.2.serverName = n)))
    = true
  · by_cases h2 : beh.closeOk = true
    · simp [h1, h2]
      exact Or.inl hx
    · simpa [h1, h2] using hx
  · simpa [h1] using hx

theorem getStatus_congr (st1 st2 : McpState) (s : String)
    (h : st1.mcpServerStatusesInternal = st2.mcpServerStatusesInternal) :
    getMCPServerStatus st1 s = getMCPServerStatus st2 s := by
  unfold getMCPServerStatus
  rw [h]

theorem getStatus_logEntry (e : LogEntry) (st : McpState) (s : String) :
    getMCPServerStatus (logEntry e st) s = getMCPServerStatus st s := rfl

theorem connectAndDiscover_other_frame (m : String) (cfg : MCPServerConfig)
    (beh : ServerBehavior) (st : McpState) (s : String) (hne : m ≠ s)
    (hmc : ':' ∉ m.data) (hsc : ':' ∉ s.data)
    (hki : promptKeyInv s st.mcpPromptsRegistry) :
    getMCPServerStatus (connectAndDiscover m cfg beh st).1 s
      = getMCPServerStatus st s ∧
    (connectAndDiscover m cfg beh st).1.toolRegistry.getToolsByServer s
      = st.toolRegistry.getToolsByServer s ∧
    ((connectAndDiscover m cfg beh st).1.mcpPromptsRegistry.any
        fun p => decide (p.2.serverName = s))
      = (st.mcpPromptsRegistry.any fun p => decide (p.2.serverName = s)) ∧
    promptKeyInv s (connectAndDiscover m cfg beh st).1.mcpPromptsRegistry ∧
    ∀ x ∈ st.closedTransports,
      x ∈ (connectAndDiscover m cfg beh st).1.closedTransports := by
  have hsne : s ≠ m := Ne.symm hne
  cases htk : transportKind cfg with
  | none =>
      rw [connectAndDiscover_invalid_eq m cfg beh st htk]
      refine ⟨?_, rfl, rfl, hki, fun x hx => hx⟩
      rw [getStatus_update_other _ _ _ _ hsne, getStatus_logEntry,
        getStatus_update_other _ _ _ _ hsne]
  | some kind =>
      cases hg : ((kind = TransportKind.streamableHttp
          || kind = TransportKind.sse) && !beh.urlOk) with
      | true =>
          rw [connectAndDiscover_urlthrow_eq m cfg beh st kind htk hg]
          exact ⟨getStatus_update_other _ _ _ _ hsne, rfl, rfl, hki,
            fun x hx => hx⟩
      | false =>
          cases hconn : beh.connectOk with
          | false =>
              rw [connectAndDiscover_connfail_eq m cfg beh st kind htk hg hconn]
              refine ⟨?_, rfl, rfl, hki, fun x hx => hx⟩
              rw [getStatus_update_other _ _ _ _ hsne, getStatus_logEntry,
                getStatus_update_other _ _ _ _ hsne]
          | true =>
              rw [connectAndDiscover_success_eq m cfg beh st kind htk hg hconn]
              set st2 := updateMCPServerStatus m .CONNECTED
                (updateMCPServerStatus m .CONNECTING st) with hst2
              set st3 := toolDiscoveryPhase m cfg beh st2 with hst3
              set st4 := promptDiscoveryPhase m beh st3 with hst4
              have htf := toolDiscoveryPhase_frame m cfg beh st2
              have hpf := promptDiscoveryPhase_frame m beh st3
              have hif := idleCheckPhase_frame m beh st4
              -- prompts of st3 are st's prompts
              have hpr3 : st3.mcpPromptsRegistry = st.mcpPromptsRegistry := by
                rw [hst3, htf.2.1, hst2]
                rfl
              -- prompts facts for st4
              have hpr4 : (st4.mcpPromptsRegistry.any
                    fun p => decide (p.2.serverName = s))
                  = (st.mcpPromptsRegistry.any
                    fun p => decide (p.2.serverName = s)) ∧
                  promptKeyInv s st4.mcpPromptsRegistry := by
                rcases promptDiscoveryPhase_prompts_eq m beh st3 with h | ⟨ps, -, h⟩
                · rw [hst4, h, hpr3]
                  exact ⟨rfl, hki⟩
                · rw [hst4, h, hpr3]
                  have hki3 : promptKeyInv s
                      (st.mcpPromptsRegistry, false).1 := hki
                  exact ⟨any_registerFold_eq m s ps _ hne hmc hsc hki3,
                    promptKeyInv_registerFold m s ps _ hki3⟩
              refine ⟨?_, ?_, ?_, ?_, ?_⟩
              · rw [idleCheckPhase_status_other m beh st4 s hsne,
                  getStatus_congr st4 st3 s hpf.1,
                  getStatus_congr st3 st2 s htf.1, hst2,
                  getStatus_update_other _ _ _ _ hsne,
                  getStatus_update_other _ _ _ _ hsne]
              · rw [hif.2.1, hst4, hpf.2.1, hst3,
                  toolDiscoveryPhase_toolRegistry, hst2]
                exact getToolsByServer_toolPhaseReg_other m cfg beh
                  st.toolRegistry s hne
              · rw [hif.1]
                exact hpr4.1
              · rw [hif.1]
                exact hpr4.2
              · intro x hx
                apply idleCheckPhase_closed_mono m beh st4 x
                rw [hst4, hpf.2.2.1, hst3, htf.2.2.1, hst2]
                exact hx

theorem connectAndDiscover_own (s : String) (cfg : MCPServerConfig)
    (beh : ServerBehavior) (st : McpState) (kind : TransportKind)
    (hk : transportKind cfg = some kind)
    (hurlok : beh.urlOk = true) (hconn : beh.connectOk = true)
    (hclose : beh.closeOk = true) :
    (connectAndDiscover s cfg beh st).2 = none ∧
    (getMCPServerStatus (connectAndDiscover s cfg beh st).1 s = .CONNECTED ↔
      ((connectAndDiscover s cfg beh st).1.toolRegistry.getToolsByServer s ≠ []
       ∨ ((connectAndDiscover s cfg beh st).1.mcpPromptsRegistry.any
            fun p => decide (p.2.serverName = s)) = true)) ∧
    (((connectAndDiscover s cfg beh st).1.toolRegistry.getToolsByServer s = []
       ∧ ((connectAndDiscover s cfg beh st).1.mcpPromptsRegistry.any
            fun p => decide (p.2.serverName = s)) = false) →
      getMCPServerStatus (connectAndDiscover s cfg beh st).1 s = .DISCONNECTED
        ∧ s ∈ (connectAndDiscover s cfg beh st).1.closedTransports) := by
  have hg : ((kind = TransportKind.streamableHttp
      || kind = TransportKind.sse) && !beh.urlOk) = false := by simp [hurlok]
  rw [connectAndDiscover_success_eq s cfg beh st kind hk hg hconn]
  set st2 := updateMCPServerStatus s .CONNECTED
    (updateMCPServerStatus s .CONNECTING st) with hst2
  set st3 := toolDiscoveryPhase s cfg beh st2 with hst3
  set st4 := promptDiscoveryPhase s beh st3 with hst4
  have hstat4 : getMCPServerStatus st4 s = .CONNECTED := by
    rw [getStatus_congr st4 st3 s (promptDiscoveryPhase_frame s beh st3).1,
      getStatus_congr st3 st2 s (toolDiscoveryPhase_frame s cfg beh st2).1,
      hst2, getStatus_update_self]
  by_cases hguard : (!decide ((st4.toolRegistry.getToolsByServer s).length > 0)
      && !(st4.mcpPromptsRegistry.any fun p => decide (p.2.serverName = s)))
    = true
  · have hparts := hguard
    simp only [Bool.and_eq_true, Bool.not_eq_true'] at hparts
    have hto : st4.toolRegistry.getToolsByServer s = [] := by
      have hlen := of_decide_eq_false hparts.1
      have : (st4.toolRegistry.getToolsByServer s).length = 0 := by omega
      exact List.length_eq_zero.mp this
    have hany : (st4.mcpPromptsRegistry.any
        fun p => decide (p.2.serverName = s)) = false := hparts.2
    have hidle : idleCheckPhase s beh st4
        = (updateMCPServerStatus s .DISCONNECTED
            { logEntry (.noArtifactsClosing s) st4 with
              closedTransports :=
                (logEntry (.noArtifactsClosing s) st4).closedTransports
                  ++ [s] }, none) := by
      simp only [idleCheckPhase]
      rw [hguard, hclose]
      rfl
    rw [hidle]
    refine ⟨rfl, ?_, ?_⟩
    · rw [getStatus_update_self]
      constructor
      · intro h
        exact absurd h (by decide)
      · intro h
        rcases h with h | h
        · exact absurd hto h
        · exact absurd (hany.symm.trans h) (by decide)
    · intro _
      refine ⟨getStatus_update_self _ _ _, ?_⟩
      show s ∈ st4.closedTransports ++ [s]
      exact List.mem_append_right _ (List.mem_singleton.mpr rfl)
  · have hdis : st4.toolRegistry.getToolsByServer s ≠ []
        ∨ (st4.mcpPromptsRegistry.any
            fun p => decide (p.2.serverName = s)) = true := by
      by_cases h1 : st4.toolRegistry.getToolsByServer s = []
      · right
        by_cases h2 : (st4.mcpPromptsRegistry.any
            fun p => decide (p.2.serverName = s)) = true
        · exact h2
        · exfalso
          apply hguard
          have hB : (st4.mcpPromptsRegistry.any
              fun p => decide (p.2.serverName = s)) = false := by
            cases hv : (st4.mcpPromptsRegistry.any
                fun p => decide (p.2.serverName = s)) with
            | true => exact absurd hv h2
            | false => rfl
          have hA : decide ((st4.toolRegistry.getToolsByServer s).length > 0)
              = false := by
            rw [h1]
            rfl
          rw [hA, hB]
          rfl
      · left
        exact h1
    have hgf : (!decide ((st4.toolRegistry.getToolsByServer s).length > 0)
        && !(st4.mcpPromptsRegistry.any fun p => decide (p.2.serverName = s)))
      = false := by
      cases hv : (!decide ((st4.toolRegistry.getToolsByServer s).length > 0)
          && !(st4.mcpPromptsRegistry.any
            fun p => decide (p.2.serverName = s))) with
      | true => exact absurd hv hguard
      | false => rfl
    have hidle : idleCheckPhase s beh st4 = (st4, none) := by
      simp only [idleCheckPhase]
      rw [hgf]
      rfl
    rw [hidle]
    refine ⟨rfl, ?_, ?_⟩
    · constructor
      · intro _
        exact hdis
      · intro _
        exact hstat4
    · intro h
      rcases hdis with hd | hd
      · exact absurd h.1 hd
      · exact absurd (h.2.symm.trans hd) (by decide)

theorem runTasks_append_state (behs : String → ServerBehavior)
    (l1 l2 : List (String × MCPServerConfig)) (st : McpState) :
    (runTasks behs (l1 ++ l2) st).1
      = (runTasks behs l2 (runTasks behs l1 st).1).1 := by
  induction l1 generalizing st with
  | nil => rfl
  | cons hd tl ih =>
      obtain ⟨n, cfg⟩ := hd
      rw [List.cons_append, runTasks_cons, runTasks_cons]
      exact ih (connectAndDiscover n cfg (behs n) st).1

theorem connectAndDiscover_noartifacts_frame (m : String)
    (cfg : MCPServerConfig) (beh : ServerBehavior) (st : McpState)
    (s : String) (hne : m ≠ s)
    (hto : st.toolRegistry.getToolsByServer s = [])
    (hpr : (st.mcpPromptsRegistry.any
      fun p => decide (p.2.serverName = s)) = false) :
    (connectAndDiscover m cfg beh st).1.toolRegistry.getToolsByServer s = []
    ∧ ((connectAndDiscover m cfg beh st).1.mcpPromptsRegistry.any
        fun p => decide (p.2.serverName = s)) = false := by
  cases htk : transportKind cfg with
  | none =>
      rw [connectAndDiscover_invalid_eq m cfg beh st htk]
      exact ⟨hto, hpr⟩
  | some kind =>
      cases hg : ((kind = TransportKind.streamableHttp
          || kind = TransportKind.sse) && !beh.urlOk) with
      | true =>
          rw [connectAndDiscover_urlthrow_eq m cfg beh st kind htk hg]
          exact ⟨hto, hpr⟩
      | false =>
          cases hconn : beh.connectOk with
          | false =>
              rw [connectAndDiscover_connfail_eq m cfg beh st kind htk hg
                hconn]
              exact ⟨hto, hpr⟩
          | true =>
              rw [connectAndDiscover_success_eq m cfg beh st kind htk hg
                hconn]
              set st2 := updateMCPServerStatus m .CONNECTED
                (updateMCPServerStatus m .CONNECTING st) with hst2
              set st3 := toolDiscoveryPhase m cfg beh st2 with hst3
              set st4 := promptDiscoveryPhase m beh st3 with hst4
              have hif := idleCheckPhase_frame m beh st4
              have hpr3 : st3.mcpPromptsRegistry = st.mcpPromptsRegistry := by
                rw [hst3, (toolDiscoveryPhase_frame m cfg beh st2).2.1, hst2]
                rfl
              constructor
              · rw [hif.2.1, hst4,
                  (promptDiscoveryPhase_frame m beh st3).2.1, hst3,
                  toolDiscoveryPhase_toolRegistry, hst2]
                rw [show (updateMCPServerStatus m .CONNECTED
                      (updateMCPServerStatus m .CONNECTING st)).toolRegistry
                    = st.toolRegistry from rfl]
                rw [getToolsByServer_toolPhaseReg_other m cfg beh
                  st.toolRegistry s hne]
                exact hto
              · rw [hif.1]
                rcases promptDiscoveryPhase_prompts_eq m beh st3
                  with h | ⟨ps, -, h⟩
                · rw [hst4, h, hpr3]
                  exact hpr
                · rw [hst4, h]
                  apply any_registerFold_false m s ps _ hne
                  rw [hpr3]
                  exact hpr

theorem runTasks_noartifacts (behs : String → ServerBehavior)
    (l : List (String × MCPServerConfig)) (st : McpState) (s : String)
    (hnot : s ∉ l.map Prod.fst)
    (hto : st.toolRegistry.getToolsByServer s = [])
    (hpr : (st.mcpPromptsRegistry.any
      fun p => decide (p.2.serverName = s)) = false) :
    (runTasks behs l st).1.toolRegistry.getToolsByServer s = [] ∧
    ((runTasks behs l st).1.mcpPromptsRegistry.any
      fun p => decide (p.2.serverName = s)) = false := by
  induction l generalizing st with
  | nil => exact ⟨hto, hpr⟩
  | cons hd tl ih =>
      obtain ⟨n, cfg⟩ := hd
      have hne : n ≠ s := by
        intro h
        exact hnot (by simp [h])
      have hnot' : s ∉ tl.map Prod.fst := fun h => hnot (by simp [h])
      rw [runTasks_cons]
      have hstep := connectAndDiscover_noartifacts_frame n cfg (behs n) st s
        hne hto hpr
      exact ih _ hnot' hstep.1 hstep.2

theorem connectAndDiscover_KI (m : String) (cfg : MCPServerConfig)
    (beh : ServerBehavior) (st : McpState) (s : String)
    (hki : promptKeyInv s st.mcpPromptsRegistry) :
    promptKeyInv s (connectAndDiscover m cfg beh st).1.mcpPromptsRegistry := by
  cases htk : transportKind cfg with
  | none =>
      rw [connectAndDiscover_invalid_eq m cfg beh st htk]
      exact hki
  | some kind =>
      cases hg : ((kind = TransportKind.streamableHttp
          || kind = TransportKind.sse) && !beh.urlOk) with
      | true =>
          rw [connectAndDiscover_urlthrow_eq m cfg beh st kind htk hg]
          exact hki
      | false =>
          cases hconn : beh.connectOk with
          | false =>
              rw [connectAndDiscover_connfail_eq m cfg beh st kind htk hg
                hconn]
              exact hki
          | true =>
              rw [connectAndDiscover_success_eq m cfg beh st kind htk hg
                hconn]
              set st2 := updateMCPServerStatus m .CONNECTED
                (updateMCPServerStatus m .CONNECTING st) with hst2
              set st3 := toolDiscoveryPhase m cfg beh st2 with hst3
              set st4 := promptDiscoveryPhase m beh st3 with hst4
              have hpr3 : st3.mcpPromptsRegistry = st.mcpPromptsRegistry := by
                rw [hst3, (toolDiscoveryPhase_frame m cfg beh st2).2.1, hst2]
                rfl
              rw [(idleCheckPhase_frame m beh st4).1]
              rcases promptDiscoveryPhase_prompts_eq m beh st3
                with h | ⟨ps, -, h⟩
              · rw [hst4, h, hpr3]
                exact hki
              · rw [hst4, h]
                apply promptKeyInv_registerFold m s ps
                rw [hpr3]
                exact hki

theorem runTasks_other_frame (behs : String → ServerBehavior)
    (l : List (String × MCPServerConfig)) (st : McpState) (s : String)
    (hnot : s ∉ l.map Prod.fst)
    (hcol : ∀ n ∈ l.map Prod.fst, ':' ∉ n.data) (hs : ':' ∉ s.data)
    (hki : promptKeyInv s st.mcpPromptsRegistry) :
    getMCPServerStatus (runTasks behs l st).1 s = getMCPServerStatus st s ∧
    (runTasks behs l st).1.toolRegistry.getToolsByServer s
      = st.toolRegistry.getToolsByServer s ∧
    ((runTasks behs l st).1.mcpPromptsRegistry.any
        fun p => decide (p.2.serverName = s))
      = (st.mcpPromptsRegistry.any fun p => decide (p.2.serverName = s)) ∧
    ∀ x ∈ st.closedTransports, x ∈ (runTasks behs l st).1.closedTransports := by
  induction l generalizing st with
  | nil => exact ⟨rfl, rfl, rfl, fun x hx => hx⟩
  | cons hd tl ih =>
      obtain ⟨n, cfg⟩ := hd
      have hne : n ≠ s := by
        intro h
        exact hnot (by simp [h])
      have hnot' : s ∉ tl.map Prod.fst := fun h => hnot (by simp [h])
      have hnc : ':' ∉ n.data := hcol n (by simp)
      have hcol' : ∀ x ∈ tl.map Prod.fst, ':' ∉ x.data :=
        fun x hx => hcol x (by simp [hx])
      rw [runTasks_cons]
      have hstep := connectAndDiscover_other_frame n cfg (behs n) st s hne
        hnc hs hki
      have hrest := ih _ hnot' hcol' hstep.2.2.2.1
      refine ⟨hrest.1.trans hstep.1, hrest.2.1.trans hstep.2.1,
        hrest.2.2.1.trans hstep.2.2.1, ?_⟩
      intro x hx
      exact hrest.2.2.2 x (hstep.2.2.2.2 x hx)

/-- **C2.**  In a batch over any server map with distinct, colon-free
server names (the prompt-registry key is `server:promptName`, so a colon in
a server name could let one server's key collide with another's), for every
server with a valid configuration and a fully well-behaved transport (URL
parses, connect succeeds, close succeeds), starting from a state holding no
artifacts for that server: after `discoverMcpTools` completes, the server's
status is CONNECTED if and only if at least one tool or prompt is
registered for it, and if zero tools and zero prompts were registered its
transport was closed and its status is DISCONNECTED. -/
theorem mcp_C2 (servers : List (String × MCPServerConfig))
    (behs : String → ServerBehavior) (st : McpState) (s : String)
    (cfg : MCPServerConfig) (kind : TransportKind)
    (hmem : (s, cfg) ∈ servers)
    (hnodup : (servers.map Prod.fst).Nodup)
    (hcol : ∀ n ∈ servers.map Prod.fst, ':' ∉ n.data)
    (hk : transportKind cfg = some kind)
    (hurlok : (behs s).urlOk = true) (hconn : (behs s).connectOk = true)
    (hclose : (behs s).closeOk = true)
    (hto : st.toolRegistry.getToolsByServer s = [])
    (hpr : (st.mcpPromptsRegistry.any
      fun p => decide (p.2.serverName = s)) = false) :
    (getMCPServerStatus (discoverMcpTools servers none none behs st).2.1 s
        = .CONNECTED ↔
      ((discoverMcpTools servers none none behs st).2.1.toolRegistry.getToolsByServer s
          ≠ [] ∨
       ((discoverMcpTools servers none none behs st).2.1.mcpPromptsRegistry.any
          fun p => decide (p.2.serverName = s)) = true)) ∧
    (((discoverMcpTools servers none none behs st).2.1.toolRegistry.getToolsByServer s
         = [] ∧
      ((discoverMcpTools servers none none behs st).2.1.mcpPromptsRegistry.any
         fun p => decide (p.2.serverName = s)) = false) →
      (getMCPServerStatus (discoverMcpTools servers none none behs st).2.1 s
          = .DISCONNECTED ∧
       s ∈ (discoverMcpTools servers none none behs st).2.1.closedTransports)) := by
  obtain ⟨pre, post, hsplit⟩ := List.append_of_mem hmem
  subst hsplit
  have hmap : ((pre ++ (s, cfg) :: post).map Prod.fst)
      = pre.map Prod.fst ++ s :: post.map Prod.fst := by simp
  rw [hmap] at hnodup
  obtain ⟨hnd1, hnd2, hdisj⟩ := List.nodup_append.mp hnodup
  have hpre : s ∉ pre.map Prod.fst :=
    fun h => hdisj h (List.mem_cons_self _ _)
  have hpost : s ∉ post.map Prod.fst := (List.nodup_cons.mp hnd2).1
  have hsc : ':' ∉ s.data := hcol s (by rw [hmap]; simp)
  have hcolpost : ∀ n ∈ post.map Prod.fst, ':' ∉ n.data :=
    fun n hn => hcol n (by rw [hmap]; simp [hn])
  set stA := setDiscoveryState .IN_PROGRESS st with hstA
  set stB := (runTasks behs pre stA).1 with hstB
  set stC := (connectAndDiscover s cfg (behs s) stB).1 with hstC
  set stD := (runTasks behs post stC).1 with hstD
  have hchain : (runTasks behs (pre ++ (s, cfg) :: post) stA).1 = stD := by
    rw [runTasks_append_state, runTasks_cons]
  have heq : (discoverMcpTools (pre ++ (s, cfg) :: post) none none behs st).2.1
      = setDiscoveryState .COMPLETED stD := by
    rw [← hchain]
    rfl
  rw [heq]
  have hB := runTasks_noartifacts behs pre stA s hpre hto hpr
  have hown := connectAndDiscover_own s cfg (behs s) stB kind hk hurlok
    hconn hclose
  have hkiC : promptKeyInv s stC.mcpPromptsRegistry :=
    connectAndDiscover_KI s cfg (behs s) stB s
      (any_false_promptKeyInv s _ hB.2)
  have hpostf := runTasks_other_frame behs post stC s hpost hcolpost hsc hkiC
  have hstat : getMCPServerStatus (setDiscoveryState .COMPLETED stD) s
      = getMCPServerStatus stC s := by
    rw [getStatus_congr (setDiscoveryState .COMPLETED stD) stD s rfl]
    exact hpostf.1
  have htools : (setDiscoveryState .COMPLETED stD).toolRegistry.getToolsByServer s
      = stC.toolRegistry.getToolsByServer s := hpostf.2.1
  have hanyf : ((setDiscoveryState .COMPLETED stD).mcpPromptsRegistry.any
        fun p => decide (p.2.serverName = s))
      = (stC.mcpPromptsRegistry.any fun p => decide (p.2.serverName = s)) :=
    hpostf.2.2.1
  constructor
  · rw [hstat, htools, hanyf]
    exact hown.2.1
  · intro h
    rw [htools, hanyf] at h
    have h2 := hown.2.2 h
    rw [hstat]
    refine ⟨h2.1, ?_⟩
    show s ∈ stD.closedTransports
    exact hpostf.2.2.2 s h2.2

/-- Witness for `mcp_C2`: two servers, `alpha2` serving one prompt
(ends CONNECTED with its prompt registered). -/
theorem mcp_C2_witness :
    (getMCPServerStatus
        (discoverMcpTools c2servers none none c2behs {}).2.1 "alpha2"
        = .CONNECTED ↔
      ((discoverMcpTools c2servers none none
          c2behs {}).2.1.toolRegistry.getToolsByServer "alpha2" ≠ [] ∨
       ((discoverMcpTools c2servers none none
          c2behs {}).2.1.mcpPromptsRegistry.any
          fun p => decide (p.2.serverName = "alpha2")) = true)) ∧
    (((discoverMcpTools c2servers none none
          c2behs {}).2.1.toolRegistry.getToolsByServer "alpha2" = [] ∧
      ((discoverMcpTools c2servers none none
          c2behs {}).2.1.mcpPromptsRegistry.any
          fun p => decide (p.2.serverName = "alpha2")) = false) →
      (getMCPServerStatus
          (discoverMcpTools c2servers none none c2behs {}).2.1 "alpha2"
          = .DISCONNECTED ∧
       "alpha2" ∈ (discoverMcpTools c2servers none none
          c2behs {}).2.1.closedTransports)) :=
  mcp_C2 c2servers c2behs {} "alpha2" { command := some "a" } .stdio
    (by decide) (by decide) (by decide) (by decide) (by decide) (by decide)
    (by decide) rfl rfl
